import Mathlib

/-!
# bob: statement execution pipeline and MySQL chains

A shallow embedding of `stmt.go` (Prepare, Stmt.Exec, QueryStmt.One/All/Cursor), of
the chains of `dialect/mysql/dialect/mods.go` (FROM, index hints, JOIN, ORDER BY,
WITH, locking) and of the CASE chain of `dialect/mysql/starters.go`.

Conventions of the embedding

* Go code that talks to collaborators (the prepared statement, the scan
  library, loaders, hooks) is a function on a `World`: the collaborators'
  own state `σ`, on which they act as arbitrary functions, and the `trace`,
  the list of collaborator calls made so far.  Only the embedded code writes
  the trace: a collaborator sees and returns `σ` alone.
* A Go pair `(v, err)` is a pair `(v, Option ε)`, `none` being the nil error.
* A Go slice is a `Slice`: `none` is the nil slice.
* A call through a nil interface value or a failed unchecked type assertion
  is a run-time panic: the embedded function returns `none`.
* The fluent methods of the chains are steps on the memory of backing arrays of
  the slices the clauses hold (see "Go slices and their backing arrays"); the
  FROM chain is given both on clauses with their elements (`FromChain`) and on
  clauses held in memory (`FromChainH`).
-/

namespace Bob

/-! ## Go values -/

/-- A Go slice value: `none` is the nil slice, `some l` a non-nil slice holding `l`. -/
abbrev Slice (α : Type) := Option (List α)

/-- The elements a `for ... range` loop over the slice visits (none for the nil slice). -/
def elems {α : Type} (s : Slice α) : List α := s.getD []

/-- The values of type `any` that stmt.go hands to `Loader.Load` and on which it
tests `HookableType`: the untyped nil, a scanned `T`, a scanned collection `Ts`. -/
inductive Retrieved (T : Type) where
  | nil : Retrieved T
  | one (t : T) : Retrieved T
  | all (ts : Slice T) : Retrieved T

/-- A collaborator call made by the code of stmt.go, with its arguments
(function-valued arguments left out). `Load i` is the call of the loader at
position `i` (from 0) of the statement's loaders; the first argument of
`AfterQueryHook` is the receiver. -/
inductive Call (Ctx X Arg Rows Link T QT : Type) where
  | RunHooks (ctx : Ctx) (exec : X)
  | Build (ctx : Ctx)
  | PrepareContext (ctx : Ctx) (query : String)
  | ExecContext (ctx : Ctx) (args : List Arg)
  | QueryContext (ctx : Ctx) (args : List Arg)
  | OneFromRows (ctx : Ctx) (rows : Option Rows)
  | AllFromRows (ctx : Ctx) (rows : Option Rows)
  | CursorFromRows (ctx : Ctx) (rows : Option Rows)
  | Mapper (ctx : Ctx) (cols : List String)
  | RowFunc (link : Link)
  | Load (i : Nat) (ctx : Ctx) (exec : Option X) (retrieved : Retrieved T)
  | AfterQueryHook (recv : Retrieved T) (ctx : Ctx) (exec : Option X) (queryType : QT)

/-- The state of the collaborators and the calls made on them so far. -/
structure World (σ C : Type) where
  state : σ
  trace : List C

/-- Make the collaborator call `f`, recording it as `c`. -/
def World.call {σ C α : Type} (w : World σ C) (c : C) (f : σ → σ × α) : World σ C × α :=
  (⟨(f w.state).1, w.trace ++ [c]⟩, (f w.state).2)

section stmt

variable {σ Ctx X Arg Res Rows Link B Cur T QT ε : Type}

/-! ## Collaborator interfaces of stmt.go -/

/-- Interface `Statement` (stmt.go, lines 15-18). -/
structure Statement (σ Ctx Arg Res Rows ε : Type) where
  ExecContext : Ctx → List Arg → σ → σ × (Option Res × Option ε)
  QueryContext : Ctx → List Arg → σ → σ × (Option Rows × Option ε)

/-- Interface `Preparer` (stmt.go, lines 10-13): an Executor (the value itself,
as handed on to hooks and loaders) with `PrepareContext`. -/
structure Preparer (σ Ctx X Arg Res Rows ε : Type) where
  executor : X
  PrepareContext : Ctx → String → σ → σ × (Option (Statement σ Ctx Arg Res Rows ε) × Option ε)

/-- Interface `Loader`: `Load(ctx, exec, retrieved any) error`; the loaders a
statement holds are taken to be non-nil interface values. -/
structure Loader (σ Ctx X T ε : Type) where
  Load : Ctx → Option X → Retrieved T → σ → σ × Option ε

/-- Method `AfterQueryHook(ctx, exec, queryType) error` bound to its receiver. -/
abbrev HookFn (σ Ctx X QT ε : Type) := Ctx → Option X → QT → σ → σ × Option ε

/-- What the type parameters `T` and `Ts` of a `QueryStmt` give the code:
the zero value `*new(T)` and the outcome of the type assertions
`any(t).(HookableType)` and `any(typedSlice).(HookableType)` (the bound hook
method when the dynamic type implements the interface). In Go the assertion
succeeds on the zero value only when `T` is a non-interface type with the method,
and then it succeeds on every value of `T`; the zero value of an interface type is
the nil interface, on which it fails whatever the other values are. -/
structure HookableType (σ Ctx X T QT ε : Type) where
  zero : T
  ofT : T → Option (HookFn σ Ctx X QT ε)
  ofTs : Slice T → Option (HookFn σ Ctx X QT ε)

/-- The row-decoding function `func(any) (T, error)` a mapper returns. -/
abbrev RowFunc (σ Link T ε : Type) := Link → σ → σ × (T × Option ε)

/-- Type `scan.Mapper[T]`: `func(ctx, cols) (BeforeFunc, func(any) (T, error))`. -/
abbrev Mapper (σ Ctx Link B T ε : Type) := Ctx → List String → σ → σ × (B × RowFunc σ Link T ε)

/-- The functions of the scan library that One and All call. -/
structure Scan (σ Ctx Rows Link B T ε : Type) where
  OneFromRows : Ctx → Mapper σ Ctx Link B T ε → Option Rows → σ → σ × (T × Option ε)
  AllFromRows : Ctx → Mapper σ Ctx Link B T ε → Option Rows → σ → σ × (Slice T × Option ε)

/-! ## Stmt -/

/-- Struct `Stmt` (stmt.go, lines 59-64). -/
structure Stmt (σ Ctx X Arg Res Rows T ε : Type) where
  stmt : Option (Statement σ Ctx Arg Res Rows ε)
  exec : Option X
  lenArgs : Int
  loaders : Slice (Loader σ Ctx X T ε)

/-- The zero value `Stmt{}`. -/
def Stmt.zero : Stmt σ Ctx X Arg Res Rows T ε :=
  { stmt := none, exec := none, lenArgs := 0, loaders := none }

/-- The loop `for _, loader := range s.loaders { if err := loader.Load(ctx, s.exec, v);
err != nil { return ..., err } }` of Exec, One, All and Cursor, from position `i`:
`some err` when the loop is left by its `return`. -/
def loadLoop (ctx : Ctx) (exec : Option X) (v : Retrieved T) :
    List (Loader σ Ctx X T ε) → Nat → World σ (Call Ctx X Arg Rows Link T QT) →
    World σ (Call Ctx X Arg Rows Link T QT) × Option ε
  | [], _, w => (w, none)
  | l :: ls, i, w =>
    match w.call (Call.Load i ctx exec v) (l.Load ctx exec v) with
    | (w1, some err) => (w1, some err)
    | (w1, none) => loadLoop ctx exec v ls (i + 1) w1

/-- Method `Stmt.Exec` (stmt.go, lines 67-80). -/
def Stmt.Exec (s : Stmt σ Ctx X Arg Res Rows T ε) (ctx : Ctx) (args : List Arg)
    (w : World σ (Call Ctx X Arg Rows Link T QT)) :
    Option (World σ (Call Ctx X Arg Rows Link T QT) × (Option Res × Option ε)) :=
  match s.stmt with
  | none => none
  | some st =>
    match w.call (Call.ExecContext ctx args) (st.ExecContext ctx args) with
    | (w1, (_, some err)) => some (w1, (none, some err))
    | (w1, (result, none)) =>
      match loadLoop ctx s.exec Retrieved.nil (elems s.loaders) 0 w1 with
      | (w2, some err) => some (w2, (none, some err))
      | (w2, none) => some (w2, (result, none))

/-! ## QueryStmt -/

/-- Struct `QueryStmt[T, Ts]` (stmt.go, lines 109-114). -/
structure QueryStmt (σ Ctx X Arg Res Rows Link B T QT ε : Type)
    extends Stmt σ Ctx X Arg Res Rows T ε where
  queryType : QT
  mapper : Mapper σ Ctx Link B T ε

/-- Method `QueryStmt.One` (stmt.go, lines 116-142). -/
def QueryStmt.One (lib : Scan σ Ctx Rows Link B T ε) (H : HookableType σ Ctx X T QT ε)
    (s : QueryStmt σ Ctx X Arg Res Rows Link B T QT ε) (ctx : Ctx) (args : List Arg)
    (w : World σ (Call Ctx X Arg Rows Link T QT)) :
    Option (World σ (Call Ctx X Arg Rows Link T QT) × (T × Option ε)) :=
  match s.stmt with
  | none => none
  | some st =>
    match w.call (Call.QueryContext ctx args) (st.QueryContext ctx args) with
    | (w1, (_, some err)) => some (w1, (H.zero, some err))
    | (w1, (rows, none)) =>
      match w1.call (Call.OneFromRows ctx rows) (lib.OneFromRows ctx s.mapper rows) with
      | (w2, (t, some err)) => some (w2, (t, some err))
      | (w2, (t, none)) =>
        match loadLoop ctx s.exec (Retrieved.one t) (elems s.loaders) 0 w2 with
        | (w3, some err) => some (w3, (t, some err))
        | (w3, none) =>
          match H.ofT t with
          | some h =>
            match w3.call (Call.AfterQueryHook (Retrieved.one t) ctx s.exec s.queryType)
                (h ctx s.exec s.queryType) with
            | (w4, some err) => some (w4, (t, some err))
            | (w4, none) => some (w4, (t, none))
          | none => some (w3, (t, none))

/-- The loop `for _, t := range typedSlice` of All (stmt.go, lines 168-172), with the
unchecked assertion `any(t).(HookableType)`: `some err` when the loop is left by
its `return`. -/
def hookLoop (H : HookableType σ Ctx X T QT ε) (ctx : Ctx) (exec : Option X) (qt : QT) :
    List T → World σ (Call Ctx X Arg Rows Link T QT) →
    Option (World σ (Call Ctx X Arg Rows Link T QT) × Option ε)
  | [], w => some (w, none)
  | t :: ts, w =>
    match H.ofT t with
    | none => none
    | some h =>
      match w.call (Call.AfterQueryHook (Retrieved.one t) ctx exec qt) (h ctx exec qt) with
      | (w1, some err) => some (w1, some err)
      | (w1, none) => hookLoop H ctx exec qt ts w1

/-- Method `QueryStmt.All` (stmt.go, lines 144-176); `typedSlice := Ts(rawSlice)` is a
conversion between slice types of the same elements. -/
def QueryStmt.All (lib : Scan σ Ctx Rows Link B T ε) (H : HookableType σ Ctx X T QT ε)
    (s : QueryStmt σ Ctx X Arg Res Rows Link B T QT ε) (ctx : Ctx) (args : List Arg)
    (w : World σ (Call Ctx X Arg Rows Link T QT)) :
    Option (World σ (Call Ctx X Arg Rows Link T QT) × (Slice T × Option ε)) :=
  match s.stmt with
  | none => none
  | some st =>
    match w.call (Call.QueryContext ctx args) (st.QueryContext ctx args) with
    | (w1, (_, some err)) => some (w1, (none, some err))
    | (w1, (rows, none)) =>
      match w1.call (Call.AllFromRows ctx rows) (lib.AllFromRows ctx s.mapper rows) with
      | (w2, (_, some err)) => some (w2, (none, some err))
      | (w2, (typedSlice, none)) =>
        match loadLoop ctx s.exec (Retrieved.all typedSlice) (elems s.loaders) 0 w2 with
        | (w3, some err) => some (w3, (none, some err))
        | (w3, none) =>
          match H.ofTs typedSlice with
          | some h =>
            match w3.call (Call.AfterQueryHook (Retrieved.all typedSlice) ctx s.exec s.queryType)
                (h ctx s.exec s.queryType) with
            | (w4, some err) => some (w4, (typedSlice, some err))
            | (w4, none) => some (w4, (typedSlice, none))
          | none =>
            match H.ofT H.zero with
            | some _ =>
              match hookLoop H ctx s.exec s.queryType (elems typedSlice) w3 with
              | none => none
              | some (w4, some err) => some (w4, (typedSlice, some err))
              | some (w4, none) => some (w4, (typedSlice, none))
            | none => some (w3, (typedSlice, none))

/-- A row-decoding function that makes collaborator calls of its own, recorded in the trace. -/
abbrev TracedRowFunc (σ Ctx X Arg Rows Link T QT ε : Type) :=
  Link → World σ (Call Ctx X Arg Rows Link T QT) →
    Option (World σ (Call Ctx X Arg Rows Link T QT) × (T × Option ε))

/-- A mapper whose row-decoding function makes collaborator calls of its own. -/
abbrev TracedMapper (σ Ctx X Arg Rows Link B T QT ε : Type) :=
  Ctx → List String → World σ (Call Ctx X Arg Rows Link T QT) →
    World σ (Call Ctx X Arg Rows Link T QT) × (B × TracedRowFunc σ Ctx X Arg Rows Link T QT ε)

/-- The inner closure `func(link any) (T, error)` of Cursor (stmt.go, lines 188-208);
`ctx` is the parameter of the enclosing closure `m2`, `after` the row-decoding
function of the original mapper. -/
def QueryStmt.Cursor.rowFunc (H : HookableType σ Ctx X T QT ε)
    (s : QueryStmt σ Ctx X Arg Res Rows Link B T QT ε) (isHookable : Bool) (ctx : Ctx)
    (after : RowFunc σ Link T ε) : TracedRowFunc σ Ctx X Arg Rows Link T QT ε :=
  fun link w =>
    match w.call (Call.RowFunc link) (after link) with
    | (w1, (t, some err)) => some (w1, (t, some err))
    | (w1, (t, none)) =>
      match loadLoop ctx s.exec (Retrieved.one t) (elems s.loaders) 0 w1 with
      | (w2, some err) => some (w2, (t, some err))
      | (w2, none) =>
        if isHookable then
          match H.ofT t with
          | none => none
          | some h =>
            match w2.call (Call.AfterQueryHook (Retrieved.one t) ctx s.exec s.queryType)
                (h ctx s.exec s.queryType) with
            | (w3, some err) => some (w3, (t, some err))
            | (w3, none) => some (w3, (t, none))
        else some (w2, (t, none))

/-- The closure `m2` of Cursor (stmt.go, lines 186-209). -/
def QueryStmt.Cursor.m2 (H : HookableType σ Ctx X T QT ε)
    (s : QueryStmt σ Ctx X Arg Res Rows Link B T QT ε) (isHookable : Bool) :
    TracedMapper σ Ctx X Arg Rows Link B T QT ε :=
  fun ctx c w =>
    match w.call (Call.Mapper ctx c) (s.mapper ctx c) with
    | (w1, (before, after)) => (w1, (before, QueryStmt.Cursor.rowFunc H s isHookable ctx after))

/-- Method `QueryStmt.Cursor` (stmt.go, lines 178-212); `CursorFromRows` is the scan
library's function, which is handed the mapper `m2`. -/
def QueryStmt.Cursor
    (CursorFromRows : Ctx → TracedMapper σ Ctx X Arg Rows Link B T QT ε → Option Rows →
      σ → σ × (Option Cur × Option ε))
    (H : HookableType σ Ctx X T QT ε)
    (s : QueryStmt σ Ctx X Arg Res Rows Link B T QT ε) (ctx : Ctx) (args : List Arg)
    (w : World σ (Call Ctx X Arg Rows Link T QT)) :
    Option (World σ (Call Ctx X Arg Rows Link T QT) × (Option Cur × Option ε)) :=
  match s.stmt with
  | none => none
  | some st =>
    match w.call (Call.QueryContext ctx args) (st.QueryContext ctx args) with
    | (w1, (_, some err)) => some (w1, (none, some err))
    | (w1, (rows, none)) =>
      some (w1.call (Call.CursorFromRows ctx rows)
        (CursorFromRows ctx (QueryStmt.Cursor.m2 H s (H.ofT H.zero).isSome) rows))

/-! ## Prepare -/

/-- Interface `Query` as Prepare uses it: `RunHooks` is present when the query is a
`HookableQuery`, `GetLoaders` when it is `Loadable`. -/
structure Query (σ Ctx X T ε : Type) where
  RunHooks : Option (Ctx → X → σ → σ × (Ctx × Option ε))
  GetLoaders : Option (Slice (Loader σ Ctx X T ε))

/-- Function `Prepare` (stmt.go, lines 23-56); `Build` is the rendering function of
the package, returning `(query, args, err)`. -/
def Prepare (Build : Ctx → Query σ Ctx X T ε → σ → σ × (String × List Arg × Option ε))
    (ctx : Ctx) (exec : Preparer σ Ctx X Arg Res Rows ε) (q : Query σ Ctx X T ε)
    (w : World σ (Call Ctx X Arg Rows Link T QT)) :
    World σ (Call Ctx X Arg Rows Link T QT) × (Stmt σ Ctx X Arg Res Rows T ε × Option ε) :=
  match (match q.RunHooks with
      | some h => w.call (Call.RunHooks ctx exec.executor) (h ctx exec.executor)
      | none => (w, (ctx, none))) with
  | (w1, (_, some err)) => (w1, (Stmt.zero, some err))
  | (w1, (ctx1, none)) =>
    match w1.call (Call.Build ctx1) (Build ctx1 q) with
    | (w2, (_, _, some err)) => (w2, (Stmt.zero, some err))
    | (w2, (query, args, none)) =>
      match w2.call (Call.PrepareContext ctx1 query) (exec.PrepareContext ctx1 query) with
      | (w3, (_, some err)) => (w3, (Stmt.zero, some err))
      | (w3, (stmt, none)) =>
        (w3, ({ stmt := stmt, exec := some exec.executor, lenArgs := (args.length : Int),
                loaders := match q.GetLoaders with
                  | some loaders => some (elems loaders)
                  | none => none }, none))

/-! ## Vocabulary of the statements -/

/-- The collaborators' state after the actions `as` have run one after the other from `st`. -/
def stateAfter : List (σ → σ × Option ε) → σ → σ
  | [], st => st
  | a :: as, st => stateAfter as (a st).1

/-- Every action of `as` returns the nil error when they run one after the other from `st`. -/
def allSucceed : List (σ → σ × Option ε) → σ → Prop
  | [], _ => True
  | a :: as, st => (a st).2 = none ∧ allSucceed as (a st).1

/-- The actions of the loaders `ls`, each called on the value `v`. -/
def loadActs (ctx : Ctx) (exec : Option X) (v : Retrieved T) (ls : List (Loader σ Ctx X T ε)) :
    List (σ → σ × Option ε) :=
  ls.map (fun l => l.Load ctx exec v)

/-- The calls `Load i, Load (i+1), ..., Load (i+n-1)`, each on the value `v`. -/
def loadCalls (ctx : Ctx) (exec : Option X) (v : Retrieved T) (i n : Nat) :
    List (Call Ctx X Arg Rows Link T QT) :=
  (List.range n).map (fun k => Call.Load (i + k) ctx exec v)

/-- The actions of the hooks of the elements `ts`, `hook t` being the method bound to `t`. -/
def hookActs (hook : T → HookFn σ Ctx X QT ε) (ctx : Ctx) (exec : Option X) (qt : QT)
    (ts : List T) : List (σ → σ × Option ε) :=
  ts.map (fun t => hook t ctx exec qt)

/-- The calls of `AfterQueryHook` on the elements `ts`, one by one. -/
def hookCalls (ctx : Ctx) (exec : Option X) (qt : QT) (ts : List T) :
    List (Call Ctx X Arg Rows Link T QT) :=
  ts.map (fun t => Call.AfterQueryHook (Retrieved.one t) ctx exec qt)

/-- The call is a call of `AfterQueryHook`. -/
def Call.isAfterQueryHook : Call Ctx X Arg Rows Link T QT → Bool
  | Call.AfterQueryHook _ _ _ _ => true
  | _ => false

/-- The pre-execution hooks of `q`, if it has any, have run from the state `st` without
error: `σ1` is the state and `ctx1` the context they leave, `calls` the calls made
(none when the query is no `HookableQuery`). -/
def hooksDone (q : Query σ Ctx X T ε) (ctx : Ctx) (x : X) (st σ1 : σ) (ctx1 : Ctx)
    (calls : List (Call Ctx X Arg Rows Link T QT)) : Prop :=
  match q.RunHooks with
  | none => σ1 = st ∧ ctx1 = ctx ∧ calls = []
  | some h => h ctx x st = (σ1, (ctx1, none)) ∧ calls = [Call.RunHooks ctx x]

end stmt

/-! ## The FROM chain of dialect/mysql/dialect/mods.go -/

namespace clause

/-- Modelled from the spec: struct `clause.IndexHint`, whose declaration is not part of
the sources at hand; the fields are those `FromChain.index` sets (`Type_` is the
field `Type`). -/
structure IndexHint where
  Type_ : String
  Indexes : List String
  For : String
  deriving DecidableEq, Repr

/-- Modelled from the spec: struct `clause.From`, whose declaration is not part of the
sources at hand; the fields are those the FROM chain reads and writes, a table
being a value of type `any` (`none` the nil interface). -/
structure From (A : Type) where
  Table : Option A
  Alias : String
  Columns : List String
  Lateral : Bool
  Partitions : List String
  IndexHints : List IndexHint
  deriving DecidableEq, Repr

end clause

namespace dialect

/-- Interface `fromable` (mods.go, lines 24-30): the methods of a target `Q`, each
acting on the target. -/
structure fromable (Q A : Type) where
  SetTable : Option A → Q → Q
  SetTableAlias : String → List String → Q → Q
  SetLateral : Bool → Q → Q
  AppendPartition : List String → Q → Q
  AppendIndexHint : clause.IndexHint → Q → Q

/-- Type `FromChain[Q]`: `func() clause.From` (mods.go, line 40). -/
abbrev FromChain (A : Type) := Unit → clause.From A

/-- Function `From` (mods.go, lines 32-38). -/
def From {A : Type} (table : Option A) : FromChain A :=
  fun _ =>
    { Table := table, Alias := "", Columns := [], Lateral := false, Partitions := [],
      IndexHints := [] }

/-- Method `FromChain.Apply` (mods.go, lines 42-52). -/
def FromChain.Apply {Q A : Type} (I : fromable Q A) (f : FromChain A) (q : Q) : Q :=
  let fr := f ()
  let q1 := I.SetTable fr.Table q
  let q2 := if fr.Alias ≠ "" then I.SetTableAlias fr.Alias fr.Columns q1 else q1
  let q3 := I.SetLateral fr.Lateral q2
  I.AppendPartition fr.Partitions q3

/-- Method `FromChain.As` (mods.go, lines 54-62). -/
def FromChain.As {A : Type} (f : FromChain A) (alias_ : String) (columns : List String) :
    FromChain A :=
  let fr := f ()
  let fr := { fr with Alias := alias_, Columns := columns }
  fun _ => fr

/-- Method `FromChain.Lateral` (mods.go, lines 64-71). -/
def FromChain.Lateral {A : Type} (f : FromChain A) : FromChain A :=
  let fr := f ()
  let fr := { fr with Lateral := true }
  fun _ => fr

/-- Method `FromChain.Partition` (mods.go, lines 73-80). -/
def FromChain.Partition {A : Type} (f : FromChain A) (partitions : List String) : FromChain A :=
  let fr := f ()
  let fr := { fr with Partitions := fr.Partitions ++ partitions }
  fun _ => fr

/-- Method `FromChain.index` (mods.go, lines 82-93). -/
def FromChain.index {A : Type} (f : FromChain A) (Type_ For first : String)
    (others : List String) : FromChain A :=
  let fr := f ()
  let fr := { fr with
    IndexHints := fr.IndexHints ++ [{ Type_ := Type_, Indexes := [first] ++ others, For := For }] }
  fun _ => fr

/-- Method `FromChain.UseIndex` (mods.go, lines 95-97). -/
def FromChain.UseIndex {A : Type} (f : FromChain A) (first : String) (others : List String) :
    FromChain A :=
  f.index "USE" "" first others

/-- Method `FromChain.UseIndexForJoin` (mods.go, lines 99-101). -/
def FromChain.UseIndexForJoin {A : Type} (f : FromChain A) (first : String)
    (others : List String) : FromChain A :=
  f.index "USE" "JOIN" first others

/-- Method `FromChain.UseIndexForOrderBy` (mods.go, lines 103-105). -/
def FromChain.UseIndexForOrderBy {A : Type} (f : FromChain A) (first : String)
    (others : List String) : FromChain A :=
  f.index "USE" "ORDER BY" first others

/-- Method `FromChain.UseIndexForGroupBy` (mods.go, lines 107-109). -/
def FromChain.UseIndexForGroupBy {A : Type} (f : FromChain A) (first : String)
    (others : List String) : FromChain A :=
  f.index "USE" "GROUP BY" first others

/-- Method `FromChain.IgnoreIndex` (mods.go, lines 111-113). -/
def FromChain.IgnoreIndex {A : Type} (f : FromChain A) (first : String)
    (others : List String) : FromChain A :=
  f.index "IGNORE" "" first others

/-- Method `FromChain.IgnoreIndexForJoin` (mods.go, lines 115-117). -/
def FromChain.IgnoreIndexForJoin {A : Type} (f : FromChain A) (first : String)
    (others : List String) : FromChain A :=
  f.index "IGNORE" "JOIN" first others

/-- Method `FromChain.IgnoreIndexForOrderBy` (mods.go, lines 119-121). -/
def FromChain.IgnoreIndexForOrderBy {A : Type} (f : FromChain A) (first : String)
    (others : List String) : FromChain A :=
  f.index "IGNORE" "ORDER BY" first others

/-- Method `FromChain.IgnoreIndexForGroupBy` (mods.go, lines 123-125). -/
def FromChain.IgnoreIndexForGroupBy {A : Type} (f : FromChain A) (first : String)
    (others : List String) : FromChain A :=
  f.index "IGNORE" "GROUP BY" first others

/-- Method `FromChain.ForceIndex` (mods.go, lines 127-129). -/
def FromChain.ForceIndex {A : Type} (f : FromChain A) (first : String)
    (others : List String) : FromChain A :=
  f.index "FORCE" "" first others

/-- Method `FromChain.ForceIndexForJoin` (mods.go, lines 131-133). -/
def FromChain.ForceIndexForJoin {A : Type} (f : FromChain A) (first : String)
    (others : List String) : FromChain A :=
  f.index "FORCE" "JOIN" first others

/-- Method `FromChain.ForceIndexForOrderBy` (mods.go, lines 135-137). -/
def FromChain.ForceIndexForOrderBy {A : Type} (f : FromChain A) (first : String)
    (others : List String) : FromChain A :=
  f.index "FORCE" "ORDER BY" first others

/-- Method `FromChain.ForceIndexForGroupBy` (mods.go, lines 139-141). -/
def FromChain.ForceIndexForGroupBy {A : Type} (f : FromChain A) (first : String)
    (others : List String) : FromChain A :=
  f.index "FORCE" "GROUP BY" first others

/-- A call of a method of `fromable`, with its arguments. -/
inductive FromCall (A : Type) where
  | SetTable (table : Option A)
  | SetTableAlias (alias_ : String) (columns : List String)
  | SetLateral (lateral : Bool)
  | AppendPartition (partitions : List String)
  | AppendIndexHint (hint : clause.IndexHint)
  deriving DecidableEq, Repr

/-- The target that records the calls made on it, in order: what a FROM chain does
to any target is the image of this record. -/
def recorder (A : Type) : fromable (List (FromCall A)) A where
  SetTable := fun table q => q ++ [FromCall.SetTable table]
  SetTableAlias := fun alias_ columns q => q ++ [FromCall.SetTableAlias alias_ columns]
  SetLateral := fun lateral q => q ++ [FromCall.SetLateral lateral]
  AppendPartition := fun partitions q => q ++ [FromCall.AppendPartition partitions]
  AppendIndexHint := fun hint q => q ++ [FromCall.AppendIndexHint hint]

/-- Carry out a recorded call on a target. -/
def FromCall.run {Q A : Type} (I : fromable Q A) : FromCall A → Q → Q
  | FromCall.SetTable table => I.SetTable table
  | FromCall.SetTableAlias alias_ columns => I.SetTableAlias alias_ columns
  | FromCall.SetLateral lateral => I.SetLateral lateral
  | FromCall.AppendPartition partitions => I.AppendPartition partitions
  | FromCall.AppendIndexHint hint => I.AppendIndexHint hint

/-- Carry out recorded calls on a target, in order. -/
def runCalls {Q A : Type} (I : fromable Q A) (cs : List (FromCall A)) (q : Q) : Q :=
  cs.foldl (fun q c => c.run I q) q

/-- Modelled from the spec: a target that owns a FROM clause, the methods of the
clause package not being part of the sources at hand; every method stores its
argument in the field of its name (appending for the two `Append` methods). -/
def keeper (A : Type) : fromable (clause.From A) A where
  SetTable := fun table q => { q with Table := table }
  SetTableAlias := fun alias_ columns q => { q with Alias := alias_, Columns := columns }
  SetLateral := fun lateral q => { q with Lateral := lateral }
  AppendPartition := fun partitions q => { q with Partitions := q.Partitions ++ partitions }
  AppendIndexHint := fun hint q => { q with IndexHints := q.IndexHints ++ [hint] }

end dialect

/-! ## Go slices and their backing arrays

The fluent methods of mods.go and starters.go copy a clause and change the copy; a
copy shares the backing arrays of the slices the clause holds, and the built-in
`append` may write into them. A method is therefore a step on the memory of
backing arrays: it takes the memory and returns the memory it leaves together with
its result. The slices that callers pass in are taken as their elements. -/

namespace mem

/-- A slice header: the backing array it points into, its length and its capacity. The
nil slice has length and capacity 0. -/
structure Hdr where
  arr : Nat
  len : Nat
  cap : Nat
  deriving DecidableEq, Repr

/-- The nil slice. -/
def Hdr.nil : Hdr := ⟨0, 0, 0⟩

/-- The backing arrays allocated so far, the array `arr` of a header at position `arr`;
an array is given by its cells written so far, from its first cell on. -/
abbrev Mem (α : Type) := List (List α)

/-- The cells written so far of the backing array `arr`. -/
def cells {α : Type} (m : Mem α) (arr : Nat) : List α := (m[arr]?).getD []

/-- The elements of the slice `s`. -/
def read {α : Type} (m : Mem α) (s : Hdr) : List α := (cells m s.arr).take s.len

/-- The header is one of a slice in the memory `m`: its elements are within its
capacity and are cells written of its backing array. -/
def valid {α : Type} (m : Mem α) (s : Hdr) : Prop :=
  s.len ≤ s.cap ∧ s.len ≤ (cells m s.arr).length ∧ (s.cap = 0 ∨ s.arr < m.length)

/-- Write `xs` into the cells of an array from position `p` on. -/
def overwrite {α : Type} (l : List α) (p : Nat) (xs : List α) : List α :=
  l.take p ++ xs ++ l.drop (p + xs.length)

/-- The built-in `append(s, xs...)`: when the capacity of `s` suffices the elements are
written into the backing array of `s` after its last element, otherwise a new array
is allocated for the elements of `s` followed by `xs`, with the spare capacity
`grow cap n` for `n` elements (left to the implementation). -/
def append {α : Type} (grow : Nat → Nat → Nat) (m : Mem α) (s : Hdr) (xs : List α) :
    Mem α × Hdr :=
  if s.len + xs.length ≤ s.cap then
    (m.set s.arr (overwrite (cells m s.arr) s.len xs), { s with len := s.len + xs.length })
  else
    (m ++ [read m s ++ xs],
      { arr := m.length, len := s.len + xs.length,
        cap := s.len + xs.length + grow s.cap (s.len + xs.length) })

end mem

/-- Modelled from the spec: the values of type `any` that the JOIN chain handles, which
are the nil interface, a plain value, a slice `[]any`, and `eq x y`, the equality
expression `bmod.X(x).EQ(y)` of the expr package, which is not part of the sources
at hand. -/
inductive Value where
  | nil : Value
  | str (s : String) : Value
  | slice (vs : List Value) : Value
  | eq (x y : Value) : Value

namespace dialect

/-- Struct `IndexHintChain` (mods.go, lines 149-151). -/
structure IndexHintChain where
  hint : clause.IndexHint
  deriving DecidableEq, Repr

end dialect

/-- The memory the methods of mods.go act on: the backing arrays of the slices of
strings (partitions), of index hints and of `any` values (join conditions), and
the `IndexHintChain` values that pointers point to, the pointer `i` pointing to
the value at position `i`. -/
structure Memory where
  strings : mem.Mem String
  hints : mem.Mem clause.IndexHint
  values : mem.Mem Value
  chains : List dialect.IndexHintChain

/-- Call the method `next` on the result of a step, in the memory the step leaves. -/
def andThen {M C C' : Type} (r : M × C) (next : C → M → M × C') : M × C' :=
  next r.2 r.1

namespace clause

/-- Modelled from the spec: struct `clause.From` as it is held in memory, the slices
the chain appends to (`Partitions`, `IndexHints`) being slice headers. -/
structure FromH (A : Type) where
  Table : Option A
  Alias : String
  Columns : List String
  Lateral : Bool
  Partitions : mem.Hdr
  IndexHints : mem.Hdr

/-- The FROM clause a held clause stands for in the memory `m`. -/
def FromH.view {A : Type} (m : Memory) (fr : FromH A) : From A :=
  { Table := fr.Table, Alias := fr.Alias, Columns := fr.Columns, Lateral := fr.Lateral,
    Partitions := mem.read m.strings fr.Partitions,
    IndexHints := mem.read m.hints fr.IndexHints }

/-- Modelled from the spec: the join types `clause.InnerJoin`, ..., whose declarations
are not part of the sources at hand. -/
def InnerJoin : String := "INNER JOIN"

/-- Modelled from the spec: see `InnerJoin`. -/
def LeftJoin : String := "LEFT JOIN"

/-- Modelled from the spec: see `InnerJoin`. -/
def RightJoin : String := "RIGHT JOIN"

/-- Modelled from the spec: see `InnerJoin`. -/
def CrossJoin : String := "CROSS JOIN"

/-- Modelled from the spec: see `InnerJoin`. -/
def StraightJoin : String := "STRAIGHT_JOIN"

/-- Modelled from the spec: struct `clause.Join`, whose declaration is not part of the
sources at hand, as it is held in memory; the fields are those the JOIN chain
sets, `On` being a slice of `any` to which the chain appends. -/
structure Join where
  Type_ : String
  To : Value
  Alias : String
  Natural : Bool
  On : mem.Hdr
  Using : List Value

/-- A JOIN clause with the elements of its `On` slice. -/
structure JoinView where
  Type_ : String
  To : Value
  Alias : String
  Natural : Bool
  On : List Value
  Using : List Value

/-- The JOIN clause a held clause stands for in the memory `m`. -/
def Join.view (m : Memory) (j : Join) : JoinView :=
  { Type_ := j.Type_, To := j.To, Alias := j.Alias, Natural := j.Natural,
    On := mem.read m.values j.On, Using := j.Using }

/-- Modelled from the spec: struct `clause.OrderDef`, whose declaration is not part of
the sources at hand; `Direction` and `CollationName` are the fields the chain sets. -/
structure OrderDef (A : Type) where
  Expression : A
  Direction : String
  CollationName : String
  deriving DecidableEq, Repr

/-- Modelled from the spec: struct `clause.CTE`, whose declaration is not part of the
sources at hand; `Query` is an interface value (`none` the nil interface). -/
structure CTE (Qy : Type) where
  Name : String
  Columns : List String
  Query : Option Qy
  deriving DecidableEq, Repr

/-- Modelled from the spec: struct `clause.For`, whose declaration is not part of the
sources at hand; `Wait` is the field the chain sets. -/
structure For where
  Strength : String
  Wait : String
  deriving DecidableEq, Repr

/-- Modelled from the spec: the wait policy NOWAIT (`clause.LockWaitNoWait`). -/
def LockWaitNoWait : String := "NOWAIT"

/-- Modelled from the spec: the wait policy SKIP LOCKED (`clause.LockWaitSkipLocked`). -/
def LockWaitSkipLocked : String := "SKIP LOCKED"

end clause

namespace dialect

/-! ### FROM chain, on the memory -/

/-- Type `FromChain[Q]` (mods.go, line 40), the clause held in memory. -/
abbrev FromChainH (A : Type) := Unit → clause.FromH A

/-- Function `From` (mods.go, lines 32-38): no partition, no index hint (nil slices). -/
def FromH {A : Type} (table : Option A) : FromChainH A :=
  fun _ =>
    { Table := table, Alias := "", Columns := [], Lateral := false,
      Partitions := mem.Hdr.nil, IndexHints := mem.Hdr.nil }

/-- Method `FromChain.Apply` (mods.go, lines 42-52), the partitions being read from
the memory. -/
def FromChainH.Apply {Q A : Type} (I : fromable Q A) (f : FromChainH A) (m : Memory) (q : Q) :
    Q :=
  let fr := f ()
  let q1 := I.SetTable fr.Table q
  let q2 := if fr.Alias ≠ "" then I.SetTableAlias fr.Alias fr.Columns q1 else q1
  let q3 := I.SetLateral fr.Lateral q2
  I.AppendPartition (mem.read m.strings fr.Partitions) q3

/-- Method `FromChain.As` (mods.go, lines 54-62). -/
def FromChainH.As {A : Type} (f : FromChainH A) (alias_ : String) (columns : List String)
    (m : Memory) : Memory × FromChainH A :=
  let fr := f ()
  let fr := { fr with Alias := alias_, Columns := columns }
  (m, fun _ => fr)

/-- Method `FromChain.Lateral` (mods.go, lines 64-71). -/
def FromChainH.Lateral {A : Type} (f : FromChainH A) (m : Memory) : Memory × FromChainH A :=
  let fr := f ()
  let fr := { fr with Lateral := true }
  (m, fun _ => fr)

/-- Method `FromChain.Partition` (mods.go, lines 73-80). -/
def FromChainH.Partition {A : Type} (grow : Nat → Nat → Nat) (f : FromChainH A)
    (partitions : List String) (m : Memory) : Memory × FromChainH A :=
  let fr := f ()
  let r := mem.append grow m.strings fr.Partitions partitions
  let fr := { fr with Partitions := r.2 }
  ({ m with strings := r.1 }, fun _ => fr)

/-- Method `FromChain.index` (mods.go, lines 82-93); the slice `Indexes` of the new
hint is a fresh one, held by its elements. -/
def FromChainH.index {A : Type} (grow : Nat → Nat → Nat) (f : FromChainH A)
    (Type_ For first : String) (others : List String) (m : Memory) : Memory × FromChainH A :=
  let fr := f ()
  let r := mem.append grow m.hints fr.IndexHints
    [{ Type_ := Type_, Indexes := [first] ++ others, For := For }]
  let fr := { fr with IndexHints := r.2 }
  ({ m with hints := r.1 }, fun _ => fr)

/-! ### IndexHintChain -/

/-- Method `IndexHintChain.Apply` (mods.go, lines 153-155), `i` being the pointer
receiver; a pointer to no value is a nil pointer, whose dereference panics. -/
def IndexHintChain.Apply {Q : Type} (AppendIndexHint : clause.IndexHint → Q → Q) (i : Nat)
    (m : Memory) (q : Q) : Option Q :=
  match m.chains[i]? with
  | none => none
  | some c => some (AppendIndexHint c.hint q)

/-- The body shared by ForJoin, ForOrderBy and ForGroupBy: `i.hint.For = v; return i`. -/
def IndexHintChain.setFor (v : String) (i : Nat) (m : Memory) : Option (Memory × Nat) :=
  match m.chains[i]? with
  | none => none
  | some c =>
    some ({ m with chains := m.chains.set i { c with hint := { c.hint with For := v } } }, i)

/-- Method `IndexHintChain.ForJoin` (mods.go, lines 157-160). -/
def IndexHintChain.ForJoin (i : Nat) (m : Memory) : Option (Memory × Nat) :=
  IndexHintChain.setFor "JOIN" i m

/-- Method `IndexHintChain.ForOrderBy` (mods.go, lines 162-165). -/
def IndexHintChain.ForOrderBy (i : Nat) (m : Memory) : Option (Memory × Nat) :=
  IndexHintChain.setFor "ORDER BY" i m

/-- Method `IndexHintChain.ForGroupBy` (mods.go, lines 167-170). -/
def IndexHintChain.ForGroupBy (i : Nat) (m : Memory) : Option (Memory × Nat) :=
  IndexHintChain.setFor "GROUP BY" i m

/-! ### JOIN chain -/

/-- Interface `joinable` (mods.go, line 215). -/
structure joinable (Q : Type) where
  AppendJoin : clause.Join → Q → Q

/-- Type `JoinChain[Q]`: `func() clause.Join` (mods.go, line 172). -/
abbrev JoinChain := Unit → clause.Join

/-- Method `JoinChain.Apply` (mods.go, lines 174-176). -/
def JoinChain.Apply {Q : Type} (I : joinable Q) (j : JoinChain) (q : Q) : Q :=
  I.AppendJoin (j ()) q

/-- Method `JoinChain.As` (mods.go, lines 178-185). -/
def JoinChain.As (j : JoinChain) (alias_ : String) (m : Memory) : Memory × JoinChain :=
  let jo := j ()
  let jo := { jo with Alias := alias_ }
  (m, fun _ => jo)

/-- Method `JoinChain.Natural` (mods.go, lines 187-192); the Mod `mods.Join[Q](jo)` is
the clause `jo` under another type. -/
def JoinChain.Natural (j : JoinChain) (m : Memory) : Memory × clause.Join :=
  let jo := j ()
  let jo := { jo with Natural := true }
  (m, jo)

/-- Method `JoinChain.On` (mods.go, lines 194-199): `append(jo.On, on)` appends one
element, the slice `on` of the conditions given. -/
def JoinChain.On (grow : Nat → Nat → Nat) (j : JoinChain) (on_ : List Value) (m : Memory) :
    Memory × clause.Join :=
  let jo := j ()
  let r := mem.append grow m.values jo.On [Value.slice on_]
  let jo := { jo with On := r.2 }
  ({ m with values := r.1 }, jo)

/-- Method `JoinChain.OnEQ` (mods.go, lines 201-206). -/
def JoinChain.OnEQ (grow : Nat → Nat → Nat) (j : JoinChain) (a b : Value) (m : Memory) :
    Memory × clause.Join :=
  let jo := j ()
  let r := mem.append grow m.values jo.On [Value.eq a b]
  let jo := { jo with On := r.2 }
  ({ m with values := r.1 }, jo)

/-- Method `JoinChain.Using` (mods.go, lines 208-213). -/
def JoinChain.Using (j : JoinChain) (using_ : List Value) (m : Memory) :
    Memory × clause.Join :=
  let jo := j ()
  let jo := { jo with Using := using_ }
  (m, jo)

/-- Function `InnerJoin` (mods.go, lines 217-224). -/
def InnerJoin (e : Value) : JoinChain :=
  fun _ =>
    { Type_ := clause.InnerJoin, To := e, Alias := "", Natural := false, On := mem.Hdr.nil,
      Using := [] }

/-- Function `LeftJoin` (mods.go, lines 226-233). -/
def LeftJoin (e : Value) : JoinChain :=
  fun _ =>
    { Type_ := clause.LeftJoin, To := e, Alias := "", Natural := false, On := mem.Hdr.nil,
      Using := [] }

/-- Function `RightJoin` (mods.go, lines 235-242). -/
def RightJoin (e : Value) : JoinChain :=
  fun _ =>
    { Type_ := clause.RightJoin, To := e, Alias := "", Natural := false, On := mem.Hdr.nil,
      Using := [] }

/-! ### ORDER BY chain -/

/-- The target of an ORDER BY chain: `interface{ AppendOrder(clause.OrderDef) }`. -/
structure orderable (Q A : Type) where
  AppendOrder : clause.OrderDef A → Q → Q

/-- Type `OrderBy[Q]`: `func() clause.OrderDef` (mods.go, line 258). -/
abbrev OrderBy (A : Type) := Unit → clause.OrderDef A

/-- Method `OrderBy.Apply` (mods.go, lines 260-262). -/
def OrderBy.Apply {Q A : Type} (I : orderable Q A) (s : OrderBy A) (q : Q) : Q :=
  I.AppendOrder (s ()) q

/-- Method `OrderBy.Asc` (mods.go, lines 264-271). -/
def OrderBy.Asc {A : Type} (o : OrderBy A) (m : Memory) : Memory × OrderBy A :=
  let order := o ()
  let order := { order with Direction := "ASC" }
  (m, fun _ => order)

/-- Method `OrderBy.Desc` (mods.go, lines 273-280). -/
def OrderBy.Desc {A : Type} (o : OrderBy A) (m : Memory) : Memory × OrderBy A :=
  let order := o ()
  let order := { order with Direction := "DESC" }
  (m, fun _ => order)

/-- Method `OrderBy.Collate` (mods.go, lines 282-289). -/
def OrderBy.Collate {A : Type} (o : OrderBy A) (collation : String) (m : Memory) :
    Memory × OrderBy A :=
  let order := o ()
  let order := { order with CollationName := collation }
  (m, fun _ => order)

/-! ### WITH chain -/

/-- The target of a WITH chain: `interface{ AppendWith(clause.CTE) }`. -/
structure withable (Q Qy : Type) where
  AppendWith : clause.CTE Qy → Q → Q

/-- Type `CTEChain[Q]`: `func() clause.CTE` (mods.go, line 291). -/
abbrev CTEChain (Qy : Type) := Unit → clause.CTE Qy

/-- Function `With` (mods.go, lines 15-22). -/
def With {Qy : Type} (name : String) (columns : List String) : CTEChain Qy :=
  fun _ => { Name := name, Columns := columns, Query := none }

/-- Method `CTEChain.Apply` (mods.go, lines 293-295). -/
def CTEChain.Apply {Q Qy : Type} (I : withable Q Qy) (c : CTEChain Qy) (q : Q) : Q :=
  I.AppendWith (c ()) q

/-- Method `CTEChain.As` (mods.go, lines 297-303); `q` is a value of the interface type
`bob.Query`. -/
def CTEChain.As {Qy : Type} (c : CTEChain Qy) (q : Option Qy) (m : Memory) :
    Memory × CTEChain Qy :=
  let cte := c ()
  let cte := { cte with Query := q }
  (m, fun _ => cte)

/-! ### Lock chain -/

/-- The target of a lock chain: `interface{ SetFor(clause.For) }`. -/
structure lockable (Q : Type) where
  SetFor : clause.For → Q → Q

/-- Type `LockChain[Q]`: `func() clause.For` (mods.go, line 305). -/
abbrev LockChain := Unit → clause.For

/-- Method `LockChain.Apply` (mods.go, lines 307-309). -/
def LockChain.Apply {Q : Type} (I : lockable Q) (l : LockChain) (q : Q) : Q :=
  I.SetFor (l ()) q

/-- Method `LockChain.NoWait` (mods.go, lines 311-317). -/
def LockChain.NoWait (l : LockChain) (m : Memory) : Memory × LockChain :=
  let lock := l ()
  let lock := { lock with Wait := clause.LockWaitNoWait }
  (m, fun _ => lock)

/-- Method `LockChain.SkipLocked` (mods.go, lines 319-325). -/
def LockChain.SkipLocked (l : LockChain) (m : Memory) : Memory × LockChain :=
  let lock := l ()
  let lock := { lock with Wait := clause.LockWaitSkipLocked }
  (m, fun _ => lock)

end dialect

/-! ## The CASE chain of dialect/mysql/starters.go -/

namespace expr

/-- Modelled from the spec: struct `expr.When`, whose declaration is not part of the
sources at hand: a condition and the value it selects. -/
structure When (T : Type) where
  Condition : T
  Then : T
  deriving DecidableEq, Repr

/-- Modelled from the spec: struct `expr.Case[T]`, whose declaration is not part of
the sources at hand, as it is held in memory: `Whens` is a slice to which the
chain appends, `Else` a value of an interface type (`none` the nil interface). -/
structure Case (T : Type) where
  Whens : mem.Hdr
  Else : Option T

/-- A CASE expression with the elements of its `Whens` slice. -/
structure CaseView (T : Type) where
  Whens : List (When T)
  Else : Option T
  deriving DecidableEq, Repr

/-- The CASE expression a held one stands for in the memory `m` of `When` arrays. -/
def Case.view {T : Type} (m : mem.Mem (When T)) (c : Case T) : CaseView T :=
  { Whens := mem.read m c.Whens, Else := c.Else }

end expr

namespace mysql

/-- Type `CaseChain[T]`: `func() expr.Case[T]` (starters.go, line 107). -/
abbrev CaseChain (T : Type) := Unit → expr.Case T

/-- Function `Case` (starters.go, lines 113-115). -/
def Case {T : Type} : CaseChain T :=
  fun _ => { Whens := mem.Hdr.nil, Else := none }

/-- Method `CaseChain.When` (starters.go, lines 117-121), a step on the memory of
`When` arrays. -/
def CaseChain.When {T : Type} (grow : Nat → Nat → Nat) (c : CaseChain T) (condition then_ : T)
    (m : mem.Mem (expr.When T)) : mem.Mem (expr.When T) × CaseChain T :=
  let cExpr := c ()
  let r := mem.append grow m cExpr.Whens [{ Condition := condition, Then := then_ }]
  let cExpr := { cExpr with Whens := r.2 }
  (r.1, fun _ => cExpr)

/-- Method `CaseChain.Else` (starters.go, lines 123-128); `New` is the method of
`dialect.Expression` that wraps the case as an expression. -/
def CaseChain.Else {T E : Type} (New : expr.Case T → E) (c : CaseChain T) (then_ : T) : E :=
  let cExpr := c ()
  let cExpr := { cExpr with Else := some then_ }
  New cExpr

/-- The calls `When(c1, t1). ... .When(cn, tn)` made one after the other on `c`. -/
def CaseChain.Whens {T : Type} (grow : Nat → Nat → Nat) :
    List (expr.When T) → CaseChain T → mem.Mem (expr.When T) →
    mem.Mem (expr.When T) × CaseChain T
  | [], c, m => (m, c)
  | p :: ps, c, m =>
    CaseChain.Whens grow ps (CaseChain.When grow c p.Condition p.Then m).2
      (CaseChain.When grow c p.Condition p.Then m).1

end mysql

namespace dialect

/-! ### The twelve index-hint methods of the FROM chain, on the memory -/

/-- Method `FromChain.UseIndex` (mods.go, lines 95-97). -/
def FromChainH.UseIndex {A : Type} (grow : Nat → Nat → Nat) (f : FromChainH A) (first : String)
    (others : List String) (m : Memory) : Memory × FromChainH A :=
  FromChainH.index grow f "USE" "" first others m

/-- Method `FromChain.UseIndexForJoin` (mods.go, lines 99-101). -/
def FromChainH.UseIndexForJoin {A : Type} (grow : Nat → Nat → Nat) (f : FromChainH A) (first : String)
    (others : List String) (m : Memory) : Memory × FromChainH A :=
  FromChainH.index grow f "USE" "JOIN" first others m

/-- Method `FromChain.UseIndexForOrderBy` (mods.go, lines 103-105). -/
def FromChainH.UseIndexForOrderBy {A : Type} (grow : Nat → Nat → Nat) (f : FromChainH A) (first : String)
    (others : List String) (m : Memory) : Memory × FromChainH A :=
  FromChainH.index grow f "USE" "ORDER BY" first others m

/-- Method `FromChain.UseIndexForGroupBy` (mods.go, lines 107-109). -/
def FromChainH.UseIndexForGroupBy {A : Type} (grow : Nat → Nat → Nat) (f : FromChainH A) (first : String)
    (others : List String) (m : Memory) : Memory × FromChainH A :=
  FromChainH.index grow f "USE" "GROUP BY" first others m

/-- Method `FromChain.IgnoreIndex` (mods.go, lines 111-113). -/
def FromChainH.IgnoreIndex {A : Type} (grow : Nat → Nat → Nat) (f : FromChainH A) (first : String)
    (others : List String) (m : Memory) : Memory × FromChainH A :=
  FromChainH.index grow f "IGNORE" "" first others m

/-- Method `FromChain.IgnoreIndexForJoin` (mods.go, lines 115-117). -/
def FromChainH.IgnoreIndexForJoin {A : Type} (grow : Nat → Nat → Nat) (f : FromChainH A) (first : String)
    (others : List String) (m : Memory) : Memory × FromChainH A :=
  FromChainH.index grow f "IGNORE" "JOIN" first others m

/-- Method `FromChain.IgnoreIndexForOrderBy` (mods.go, lines 119-121). -/
def FromChainH.IgnoreIndexForOrderBy {A : Type} (grow : Nat → Nat → Nat) (f : FromChainH A) (first : String)
    (others : List String) (m : Memory) : Memory × FromChainH A :=
  FromChainH.index grow f "IGNORE" "ORDER BY" first others m

/-- Method `FromChain.IgnoreIndexForGroupBy` (mods.go, lines 123-125). -/
def FromChainH.IgnoreIndexForGroupBy {A : Type} (grow : Nat → Nat → Nat) (f : FromChainH A) (first : String)
    (others : List String) (m : Memory) : Memory × FromChainH A :=
  FromChainH.index grow f "IGNORE" "GROUP BY" first others m

/-- Method `FromChain.ForceIndex` (mods.go, lines 127-129). -/
def FromChainH.ForceIndex {A : Type} (grow : Nat → Nat → Nat) (f : FromChainH A) (first : String)
    (others : List String) (m : Memory) : Memory × FromChainH A :=
  FromChainH.index grow f "FORCE" "" first others m

/-- Method `FromChain.ForceIndexForJoin` (mods.go, lines 131-133). -/
def FromChainH.ForceIndexForJoin {A : Type} (grow : Nat → Nat → Nat) (f : FromChainH A) (first : String)
    (others : List String) (m : Memory) : Memory × FromChainH A :=
  FromChainH.index grow f "FORCE" "JOIN" first others m

/-- Method `FromChain.ForceIndexForOrderBy` (mods.go, lines 135-137). -/
def FromChainH.ForceIndexForOrderBy {A : Type} (grow : Nat → Nat → Nat) (f : FromChainH A) (first : String)
    (others : List String) (m : Memory) : Memory × FromChainH A :=
  FromChainH.index grow f "FORCE" "ORDER BY" first others m

/-- Method `FromChain.ForceIndexForGroupBy` (mods.go, lines 139-141). -/
def FromChainH.ForceIndexForGroupBy {A : Type} (grow : Nat → Nat → Nat) (f : FromChainH A) (first : String)
    (others : List String) (m : Memory) : Memory × FromChainH A :=
  FromChainH.index grow f "FORCE" "GROUP BY" first others m

end dialect

namespace clause

/-- The clause `fr` with one index hint more, after the hints it has: the hint of type
`Type_` for `For` on the index `first` followed by the indexes `others`. -/
def From.withHint {A : Type} (fr : From A) (Type_ For first : String) (others : List String) :
    From A :=
  { Table := fr.Table, Alias := fr.Alias, Columns := fr.Columns, Lateral := fr.Lateral,
    Partitions := fr.Partitions,
    IndexHints := fr.IndexHints ++ [{ Type_ := Type_, Indexes := first :: others, For := For }] }

end clause

/-! ## Concrete collaborators, for evaluating the code -/

namespace Sample

/-- A prepared statement whose calls succeed, each advancing the state by one. -/
def statement : Statement Nat String Nat Nat Nat String where
  ExecContext := fun _ args st => (st + 1, (some args.length, none))
  QueryContext := fun _ _ st => (st + 1, (some 5, none))

/-- A loader that succeeds, adding `n` to the state. -/
def addLoader (n : Nat) : Loader Nat String String Nat String where
  Load := fun _ _ _ st => (st + n, none)

/-- A loader that fails with the error `msg`. -/
def failLoader (msg : String) : Loader Nat String String Nat String where
  Load := fun _ _ _ st => (st, some msg)

/-- A mapper whose row-decoding function returns the link as the decoded value. -/
def mapper : Mapper Nat String Nat Unit Nat String :=
  fun _ _ st => (st, ((), fun link st => (st + 1, (link, none))))

/-- A scan library that scans the value 7, or the collection 7, 8. -/
def scanLib : Scan Nat String Nat Nat Unit Nat String where
  OneFromRows := fun _ _ _ st => (st + 1, (7, none))
  AllFromRows := fun _ _ _ st => (st + 1, (some [7, 8], none))

/-- A hook that succeeds, adding 100 to the state. -/
def hook : HookFn Nat String String String String :=
  fun _ _ _ st => (st + 100, none)

/-- An element type with the hook, a collection type without. -/
def hookable : HookableType Nat String String Nat String String where
  zero := 0
  ofT := fun _ => some hook
  ofTs := fun _ => none

/-- A statement on `statement` with the loaders `ls`. -/
def stmtOf (ls : List (Loader Nat String String Nat String)) :
    Stmt Nat String String Nat Nat Nat Nat String where
  stmt := some statement
  exec := some "db"
  lenArgs := 0
  loaders := some ls

/-- A query statement on `statement` with the loaders `ls`. -/
def queryStmt (ls : List (Loader Nat String String Nat String)) :
    QueryStmt Nat String String Nat Nat Nat Nat Unit Nat String String where
  toStmt := stmtOf ls
  queryType := "SELECT"
  mapper := mapper

/-- The world before any call. -/
def world0 : World Nat (Call String String Nat Nat Nat Nat String) := ⟨0, []⟩

/-- A rendering that yields a text with three placeholders and three arguments. -/
def build : String → Query Nat String String Nat String → Nat →
    Nat × (String × List Nat × Option String) :=
  fun _ _ st => (st + 1, ("SELECT ?, ?, ?", [1, 2, 3], none))

/-- A rendering that fails. -/
def buildFails : String → Query Nat String String Nat String → Nat →
    Nat × (String × List Nat × Option String) :=
  fun _ _ st => (st + 1, ("", [], some "render"))

/-- An executor that prepares every text as `statement`. -/
def preparer : Preparer Nat String String Nat Nat Nat String where
  executor := "db"
  PrepareContext := fun _ _ st => (st + 1, (some statement, none))

/-- An executor whose `PrepareContext` fails. -/
def preparerFails : Preparer Nat String String Nat Nat Nat String where
  executor := "db"
  PrepareContext := fun _ _ st => (st + 1, (none, some "prepare"))

/-- A query with a hook that succeeds and the declared loaders `ls`. -/
def query (ls : List (Loader Nat String String Nat String)) :
    Query Nat String String Nat String where
  RunHooks := some (fun ctx _ st => (st + 1, (ctx ++ "+hooks", none)))
  GetLoaders := some (some ls)

/-- A query whose hook fails. -/
def queryHookFails : Query Nat String String Nat String where
  RunHooks := some (fun ctx _ st => (st + 1, (ctx, some "hook")))
  GetLoaders := none

/-- A collection type with a hook of its own. -/
def hookableColl : HookableType Nat String String Nat String String where
  zero := 0
  ofT := fun _ => some hook
  ofTs := fun _ => some hook

/-- Neither the element type nor the collection type has the hook. -/
def unhookable : HookableType Nat String String Nat String String where
  zero := 0
  ofT := fun _ => none
  ofTs := fun _ => none

/-- The hook of the element `t`: it fails on 8 and succeeds, adding 100, otherwise. -/
def pickyHook (t : Nat) : HookFn Nat String String String String :=
  fun _ _ _ st => if t = 8 then (st, some "eight") else (st + 100, none)

/-- An element type whose hook fails on the element 8. -/
def hookablePicky : HookableType Nat String String Nat String String where
  zero := 0
  ofT := fun t => some (pickyHook t)
  ofTs := fun _ => none

/-- A scan library that scans the collection 7, 8, 9. -/
def scanLib3 : Scan Nat String Nat Nat Unit Nat String where
  OneFromRows := fun _ _ _ st => (st + 1, (7, none))
  AllFromRows := fun _ _ _ st => (st + 1, (some [7, 8, 9], none))

/-- A cursor constructor of the scan library, returning the cursor 0. -/
def cursorFromRows : String → TracedMapper Nat String String Nat Nat Nat Unit Nat String String →
    Option Nat → Nat → Nat × (Option Nat × Option String) :=
  fun _ _ _ st => (st + 1, (some 0, none))

/-- The chain `From("users").As("u").UseIndex("idx_users_email")`. -/
def usersChain : dialect.FromChain String :=
  ((dialect.From (some "users")).As "u" []).UseIndex "idx_users_email" []

/-- The FROM clause of a target nothing has been applied to. -/
def emptyFrom : clause.From String :=
  { Table := none, Alias := "", Columns := [], Lateral := false, Partitions := [],
    IndexHints := [] }

/-- The growth policy of Go for slices of capacity below 256, the rounding to allocation
size classes left out: the new capacity is the double of the old one, or the length
needed when that is more; `grow cap n` is the capacity left spare for `n` elements.
From the nil slice, three appends of one element give the capacities 1, 2 and 4. -/
def grow : Nat → Nat → Nat := fun cap n => max n (2 * cap) - n

/-- The memory with nothing allocated. -/
def memory0 : Memory := ⟨[], [], [], []⟩

/-- The chain `From("t").Partition("a").Partition("b").Partition("c")` built in the empty
memory, with the memory it leaves: the arrays of the three appends, of capacities
1, 2 and 4, the chain holding the last one, with room for one more partition. -/
def partABC : Memory × dialect.FromChainH String :=
  andThen
    (andThen (dialect.FromChainH.Partition grow (dialect.FromH (some "t")) ["a"] memory0)
      (fun f => dialect.FromChainH.Partition grow f ["b"]))
    (fun f => dialect.FromChainH.Partition grow f ["c"])

/-- A memory with one `IndexHintChain`, for the hint USE INDEX (idx), at pointer 0. -/
def memoryHint : Memory :=
  ⟨[], [], [], [{ hint := { Type_ := "USE", Indexes := ["idx"], For := "" } }]⟩

/-- A target that keeps the joins appended to it, in order. -/
def joinList : dialect.joinable (List clause.Join) where
  AppendJoin := fun c q => q ++ [c]

/-- A target that keeps the order terms appended to it, in order. -/
def orderList : dialect.orderable (List (clause.OrderDef String)) String where
  AppendOrder := fun c q => q ++ [c]

/-- The order term `name`, with no direction and no collation. -/
def orderName : dialect.OrderBy String :=
  fun _ => { Expression := "name", Direction := "", CollationName := "" }

/-- The Mod `InnerJoin("orders").On("a")` built in the empty memory, with the memory it
leaves: one array of conditions, of capacity 1, holding the group of "a". -/
def joinOnA : Memory × clause.Join :=
  dialect.JoinChain.On grow (dialect.InnerJoin (Value.str "orders")) [Value.str "a"] memory0

/-- A target that keeps the CTEs appended to it, in order. -/
def withList : dialect.withable (List (clause.CTE String)) String where
  AppendWith := fun c q => q ++ [c]

/-- The chain `From("users").UseIndex("a")` built in the empty memory, with the memory
it leaves: one array of hints, of capacity 1, holding USE INDEX (a). -/
def useA : Memory × dialect.FromChainH String :=
  dialect.FromChainH.UseIndex grow (dialect.FromH (some "users")) "a" [] memory0

/-- An element type that is an interface type with the hook: its zero value, the nil
interface (here 0), fails the assertion, every other value passes it; the
collection type has no hook. -/
def hookableIface : HookableType Nat String String Nat String String where
  zero := 0
  ofT := fun t => if t = 0 then none else some hook
  ofTs := fun _ => none

end Sample

/-! ## Lemmas on the loader loop -/

section lemmas

variable {σ Ctx X Arg Res Rows Link B Cur T QT ε : Type}

theorem loadCalls_zero (ctx : Ctx) (exec : Option X) (v : Retrieved T) (i : Nat) :
    (loadCalls ctx exec v i 0 : List (Call Ctx X Arg Rows Link T QT)) = [] := rfl

theorem loadCalls_succ (ctx : Ctx) (exec : Option X) (v : Retrieved T) (i n : Nat) :
    (loadCalls ctx exec v i (n + 1) : List (Call Ctx X Arg Rows Link T QT)) =
      Call.Load i ctx exec v :: loadCalls ctx exec v (i + 1) n := by
  simp only [loadCalls, List.range_succ_eq_map, List.map_cons, List.map_map, Nat.add_zero]
  congr 1
  apply List.map_congr_left
  intro k _
  simp only [Function.comp, Nat.succ_eq_add_one]
  congr 1
  omega

theorem call_eq (st : σ) (tr : List (Call Ctx X Arg Rows Link T QT)) {α : Type}
    (c : Call Ctx X Arg Rows Link T QT) (f : σ → σ × α) :
    World.call ⟨st, tr⟩ c f = (⟨(f st).1, tr ++ [c]⟩, (f st).2) := rfl

/-- When all loaders succeed the loop runs them all, in order, and falls through. -/
theorem loadLoop_ok (ctx : Ctx) (exec : Option X) (v : Retrieved T)
    (ls : List (Loader σ Ctx X T ε)) :
    ∀ (i : Nat) (st : σ) (tr : List (Call Ctx X Arg Rows Link T QT)),
      allSucceed (loadActs ctx exec v ls) st →
      loadLoop ctx exec v ls i ⟨st, tr⟩ =
        (⟨stateAfter (loadActs ctx exec v ls) st, tr ++ loadCalls ctx exec v i ls.length⟩,
          none) := by
  induction ls with
  | nil =>
    intro i st tr _
    simp [loadLoop, loadActs, stateAfter, loadCalls_zero]
  | cons l ls ih =>
    intro i st tr h
    obtain ⟨h1, h2⟩ := h
    rw [loadLoop, call_eq, h1]
    simp only
    rw [ih (i + 1) _ _ h2]
    simp [loadActs, stateAfter, loadCalls_succ]

/-- When the loader after `pre` is the first to fail the loop stops there. -/
theorem loadLoop_fail (ctx : Ctx) (exec : Option X) (v : Retrieved T)
    (pre : List (Loader σ Ctx X T ε)) (l : Loader σ Ctx X T ε)
    (post : List (Loader σ Ctx X T ε)) (e : ε) :
    ∀ (i : Nat) (st : σ) (tr : List (Call Ctx X Arg Rows Link T QT)),
      allSucceed (loadActs ctx exec v pre) st →
      (l.Load ctx exec v (stateAfter (loadActs ctx exec v pre) st)).2 = some e →
      loadLoop ctx exec v (pre ++ l :: post) i ⟨st, tr⟩ =
        (⟨(l.Load ctx exec v (stateAfter (loadActs ctx exec v pre) st)).1,
          tr ++ loadCalls ctx exec v i (pre.length + 1)⟩, some e) := by
  induction pre with
  | nil =>
    intro i st tr _ hl
    simp only [loadActs, List.map_nil, stateAfter] at hl
    rw [List.nil_append, loadLoop, call_eq, hl]
    simp [loadActs, stateAfter, loadCalls_succ, loadCalls_zero]
  | cons p pre ih =>
    intro i st tr h hl
    obtain ⟨h1, h2⟩ := h
    simp only [loadActs, List.map_cons, stateAfter] at hl
    rw [List.cons_append, loadLoop, call_eq, h1]
    simp only
    rw [ih (i + 1) _ _ h2 hl]
    simp [loadActs, stateAfter, loadCalls_succ]

theorem loadCalls_not_hook (ctx : Ctx) (exec : Option X) (v : Retrieved T) (i n : Nat) :
    ∀ c ∈ (loadCalls ctx exec v i n : List (Call Ctx X Arg Rows Link T QT)),
      c.isAfterQueryHook = false := by
  intro c hc
  simp only [loadCalls, List.mem_map] at hc
  obtain ⟨k, _, rfl⟩ := hc
  rfl

/-- When the hooks of all elements succeed the loop of All runs them all, in order. -/
theorem hookLoop_ok (H : HookableType σ Ctx X T QT ε) (hook : T → HookFn σ Ctx X QT ε)
    (hH : ∀ t, H.ofT t = some (hook t)) (ctx : Ctx) (exec : Option X) (qt : QT)
    (ts : List T) :
    ∀ (st : σ) (tr : List (Call Ctx X Arg Rows Link T QT)),
      allSucceed (hookActs hook ctx exec qt ts) st →
      hookLoop H ctx exec qt ts ⟨st, tr⟩ =
        some (⟨stateAfter (hookActs hook ctx exec qt ts) st, tr ++ hookCalls ctx exec qt ts⟩,
          none) := by
  induction ts with
  | nil =>
    intro st tr _
    simp [hookLoop, hookActs, stateAfter, hookCalls]
  | cons t ts ih =>
    intro st tr h
    obtain ⟨h1, h2⟩ := h
    rw [hookLoop, hH t]
    simp only [call_eq, h1]
    rw [ih _ _ h2]
    simp [hookActs, stateAfter, hookCalls]

/-- When the hook of the element after `pre` is the first to fail the loop stops there. -/
theorem hookLoop_fail (H : HookableType σ Ctx X T QT ε) (hook : T → HookFn σ Ctx X QT ε)
    (hH : ∀ t, H.ofT t = some (hook t)) (ctx : Ctx) (exec : Option X) (qt : QT)
    (pre : List T) (t : T) (post : List T) (e : ε) :
    ∀ (st : σ) (tr : List (Call Ctx X Arg Rows Link T QT)),
      allSucceed (hookActs hook ctx exec qt pre) st →
      (hook t ctx exec qt (stateAfter (hookActs hook ctx exec qt pre) st)).2 = some e →
      hookLoop H ctx exec qt (pre ++ t :: post) ⟨st, tr⟩ =
        some (⟨(hook t ctx exec qt (stateAfter (hookActs hook ctx exec qt pre) st)).1,
          tr ++ hookCalls ctx exec qt (pre ++ [t])⟩, some e) := by
  induction pre with
  | nil =>
    intro st tr _ hl
    simp only [hookActs, List.map_nil, stateAfter] at hl
    rw [List.nil_append, hookLoop, hH t]
    simp only [call_eq, hl]
    simp [hookActs, stateAfter, hookCalls]
  | cons p pre ih =>
    intro st tr h hl
    obtain ⟨h1, h2⟩ := h
    simp only [hookActs, List.map_cons, stateAfter] at hl
    rw [List.cons_append, hookLoop, hH p]
    simp only [call_eq, h1]
    rw [ih _ _ h2 hl]
    simp [hookActs, stateAfter, hookCalls]

end lemmas

/-! ## The statement execution pipeline: claims -/

section claims

variable {σ Ctx X Arg Res Rows Link B Cur T QT ε : Type}

/-- C1. When the query, the scan and every loader succeed and the scanned value is
hookable, `QueryStmt.One` makes exactly these calls, in this order: the query, the
scan, the loaders at positions 0, 1, ..., n-1 (each once, on the scanned value),
then `AfterQueryHook` once, on the scanned value, with the stored query type; it
returns the scanned value with the error of the hook. -/
theorem C1_One_call_sequence (lib : Scan σ Ctx Rows Link B T ε)
    (H : HookableType σ Ctx X T QT ε) (s : QueryStmt σ Ctx X Arg Res Rows Link B T QT ε)
    (ctx : Ctx) (args : List Arg) (w : World σ (Call Ctx X Arg Rows Link T QT))
    (st : Statement σ Ctx Arg Res Rows ε) (rows : Option Rows) (t : T)
    (h : HookFn σ Ctx X QT ε) (σ1 σ2 : σ)
    (hst : s.stmt = some st)
    (hq : st.QueryContext ctx args w.state = (σ1, (rows, none)))
    (hs : lib.OneFromRows ctx s.mapper rows σ1 = (σ2, (t, none)))
    (hl : allSucceed (loadActs ctx s.exec (Retrieved.one t) (elems s.loaders)) σ2)
    (hh : H.ofT t = some h) :
    QueryStmt.One lib H s ctx args w =
      some (⟨(h ctx s.exec s.queryType
                (stateAfter (loadActs ctx s.exec (Retrieved.one t) (elems s.loaders)) σ2)).1,
             w.trace ++ [Call.QueryContext ctx args, Call.OneFromRows ctx rows]
               ++ loadCalls ctx s.exec (Retrieved.one t) 0 (elems s.loaders).length
               ++ [Call.AfterQueryHook (Retrieved.one t) ctx s.exec s.queryType]⟩,
            (t, (h ctx s.exec s.queryType
                (stateAfter (loadActs ctx s.exec (Retrieved.one t) (elems s.loaders)) σ2)).2)) := by
  obtain ⟨st0, tr⟩ := w
  simp only at hq
  unfold QueryStmt.One
  rw [hst]
  simp only [call_eq, hq, hs]
  rw [loadLoop_ok ctx s.exec (Retrieved.one t) (elems s.loaders) 0 σ2 _ hl]
  simp only [hh]
  cases hr : (h ctx s.exec s.queryType
      (stateAfter (loadActs ctx s.exec (Retrieved.one t) (elems s.loaders)) σ2)).2 <;>
    simp [call_eq, hr]

/-- Witness of C1: two loaders, then the hook. -/
theorem C1_One_call_sequence_witness :
    QueryStmt.One Sample.scanLib Sample.hookable
        (Sample.queryStmt [Sample.addLoader 1, Sample.addLoader 10]) "ctx" [1] Sample.world0 =
      some (⟨113, [Call.QueryContext "ctx" [1], Call.OneFromRows "ctx" (some 5),
                   Call.Load 0 "ctx" (some "db") (Retrieved.one 7),
                   Call.Load 1 "ctx" (some "db") (Retrieved.one 7),
                   Call.AfterQueryHook (Retrieved.one 7) "ctx" (some "db") "SELECT"]⟩,
            (7, none)) :=
  C1_One_call_sequence Sample.scanLib Sample.hookable
    (Sample.queryStmt [Sample.addLoader 1, Sample.addLoader 10]) "ctx" [1] Sample.world0
    Sample.statement (some 5) 7 Sample.hook 1 2 rfl rfl rfl ⟨rfl, rfl, trivial⟩ rfl

/-- C2. When `ExecContext` succeeds and the loader after `pre` is the first of the
captured loaders to fail, `Stmt.Exec` calls the loaders at positions 0, ..., |pre|
once each, in order, each on the nil value, calls no loader after it, and returns
the nil result with the error of that loader. -/
theorem C2_Exec_loader_short_circuit (s : Stmt σ Ctx X Arg Res Rows T ε)
    (ctx : Ctx) (args : List Arg) (w : World σ (Call Ctx X Arg Rows Link T QT))
    (st : Statement σ Ctx Arg Res Rows ε) (result : Option Res) (σ1 : σ)
    (pre : List (Loader σ Ctx X T ε)) (l : Loader σ Ctx X T ε)
    (post : List (Loader σ Ctx X T ε)) (e : ε)
    (hst : s.stmt = some st)
    (hx : st.ExecContext ctx args w.state = (σ1, (result, none)))
    (hls : elems s.loaders = pre ++ l :: post)
    (hpre : allSucceed (loadActs ctx s.exec Retrieved.nil pre) σ1)
    (hl : (l.Load ctx s.exec Retrieved.nil
            (stateAfter (loadActs ctx s.exec Retrieved.nil pre) σ1)).2 = some e) :
    Stmt.Exec s ctx args w =
      some (⟨(l.Load ctx s.exec Retrieved.nil
                (stateAfter (loadActs ctx s.exec Retrieved.nil pre) σ1)).1,
             w.trace ++ [Call.ExecContext ctx args]
               ++ loadCalls ctx s.exec Retrieved.nil 0 (pre.length + 1)⟩,
            (none, some e)) := by
  obtain ⟨st0, tr⟩ := w
  simp only at hx
  unfold Stmt.Exec
  rw [hst]
  simp only [call_eq, hx, hls]
  rw [loadLoop_fail ctx s.exec Retrieved.nil pre l post e 0 σ1 _ hpre hl]

/-- Witness of C2: the second of three loaders fails, the third never runs. -/
theorem C2_Exec_loader_short_circuit_witness :
    Stmt.Exec (Sample.stmtOf [Sample.addLoader 1, Sample.failLoader "second", Sample.addLoader 10])
        "ctx" [1, 2] Sample.world0 =
      some (⟨2, [Call.ExecContext "ctx" [1, 2],
                 Call.Load 0 "ctx" (some "db") Retrieved.nil,
                 Call.Load 1 "ctx" (some "db") Retrieved.nil]⟩,
            (none, some "second")) :=
  C2_Exec_loader_short_circuit
    (Sample.stmtOf [Sample.addLoader 1, Sample.failLoader "second", Sample.addLoader 10])
    "ctx" [1, 2] Sample.world0 Sample.statement (some 2) 1
    [Sample.addLoader 1] (Sample.failLoader "second") [Sample.addLoader 10] "second"
    rfl rfl rfl ⟨rfl, trivial⟩ rfl

/-- C3. When the query and the scan succeed and the loader after `pre` is the first
to fail, `QueryStmt.One` returns the scanned value with the error of that loader,
and none of the calls it makes is a call of `AfterQueryHook`. -/
theorem C3_One_loader_failure_skips_hook (lib : Scan σ Ctx Rows Link B T ε)
    (H : HookableType σ Ctx X T QT ε) (s : QueryStmt σ Ctx X Arg Res Rows Link B T QT ε)
    (ctx : Ctx) (args : List Arg) (w : World σ (Call Ctx X Arg Rows Link T QT))
    (st : Statement σ Ctx Arg Res Rows ε) (rows : Option Rows) (t : T) (σ1 σ2 : σ)
    (pre : List (Loader σ Ctx X T ε)) (l : Loader σ Ctx X T ε)
    (post : List (Loader σ Ctx X T ε)) (e : ε)
    (hst : s.stmt = some st)
    (hq : st.QueryContext ctx args w.state = (σ1, (rows, none)))
    (hs : lib.OneFromRows ctx s.mapper rows σ1 = (σ2, (t, none)))
    (hls : elems s.loaders = pre ++ l :: post)
    (hpre : allSucceed (loadActs ctx s.exec (Retrieved.one t) pre) σ2)
    (hl : (l.Load ctx s.exec (Retrieved.one t)
            (stateAfter (loadActs ctx s.exec (Retrieved.one t) pre) σ2)).2 = some e) :
    QueryStmt.One lib H s ctx args w =
      some (⟨(l.Load ctx s.exec (Retrieved.one t)
                (stateAfter (loadActs ctx s.exec (Retrieved.one t) pre) σ2)).1,
             w.trace ++ ([Call.QueryContext ctx args, Call.OneFromRows ctx rows]
               ++ loadCalls ctx s.exec (Retrieved.one t) 0 (pre.length + 1))⟩,
            (t, some e)) ∧
    ∀ c ∈ ([Call.QueryContext ctx args, Call.OneFromRows ctx rows]
            ++ loadCalls ctx s.exec (Retrieved.one t) 0 (pre.length + 1) :
            List (Call Ctx X Arg Rows Link T QT)),
      c.isAfterQueryHook = false := by
  constructor
  · obtain ⟨st0, tr⟩ := w
    simp only at hq
    unfold QueryStmt.One
    rw [hst]
    simp only [call_eq, hq, hs, hls]
    rw [loadLoop_fail ctx s.exec (Retrieved.one t) pre l post e 0 σ2 _ hpre hl]
    simp
  · intro c hc
    rw [List.mem_append] at hc
    rcases hc with hc | hc
    · simp only [List.mem_cons, List.mem_singleton, List.not_mem_nil, or_false] at hc
      rcases hc with rfl | rfl <;> rfl
    · exact loadCalls_not_hook ctx s.exec (Retrieved.one t) 0 (pre.length + 1) c hc

/-- Witness of C3: the first loader fails, the hookable value is returned unhooked. -/
theorem C3_One_loader_failure_skips_hook_witness :
    QueryStmt.One Sample.scanLib Sample.hookable
        (Sample.queryStmt [Sample.failLoader "first", Sample.addLoader 10]) "ctx" [1]
        Sample.world0 =
      some (⟨2, [Call.QueryContext "ctx" [1], Call.OneFromRows "ctx" (some 5),
                 Call.Load 0 "ctx" (some "db") (Retrieved.one 7)]⟩,
            (7, some "first")) :=
  (C3_One_loader_failure_skips_hook Sample.scanLib Sample.hookable
    (Sample.queryStmt [Sample.failLoader "first", Sample.addLoader 10]) "ctx" [1] Sample.world0
    Sample.statement (some 5) 7 1 2
    [] (Sample.failLoader "first") [Sample.addLoader 10] "first"
    rfl rfl rfl rfl trivial rfl).1

/-- When the query and the scan succeed and the loader after `pre` is the first to
fail, `QueryStmt.All` returns the nil collection with the error of that loader. -/
theorem All_loader_failure (lib : Scan σ Ctx Rows Link B T ε)
    (H : HookableType σ Ctx X T QT ε) (s : QueryStmt σ Ctx X Arg Res Rows Link B T QT ε)
    (ctx : Ctx) (args : List Arg) (w : World σ (Call Ctx X Arg Rows Link T QT))
    (st : Statement σ Ctx Arg Res Rows ε) (rows : Option Rows) (ts : Slice T) (σ1 σ2 : σ)
    (pre : List (Loader σ Ctx X T ε)) (l : Loader σ Ctx X T ε)
    (post : List (Loader σ Ctx X T ε)) (e : ε)
    (hst : s.stmt = some st)
    (hq : st.QueryContext ctx args w.state = (σ1, (rows, none)))
    (hs : lib.AllFromRows ctx s.mapper rows σ1 = (σ2, (ts, none)))
    (hls : elems s.loaders = pre ++ l :: post)
    (hpre : allSucceed (loadActs ctx s.exec (Retrieved.all ts) pre) σ2)
    (hl : (l.Load ctx s.exec (Retrieved.all ts)
            (stateAfter (loadActs ctx s.exec (Retrieved.all ts) pre) σ2)).2 = some e) :
    QueryStmt.All lib H s ctx args w =
      some (⟨(l.Load ctx s.exec (Retrieved.all ts)
                (stateAfter (loadActs ctx s.exec (Retrieved.all ts) pre) σ2)).1,
             w.trace ++ ([Call.QueryContext ctx args, Call.AllFromRows ctx rows]
               ++ loadCalls ctx s.exec (Retrieved.all ts) 0 (pre.length + 1))⟩,
            (none, some e)) := by
  obtain ⟨st0, tr⟩ := w
  simp only at hq
  unfold QueryStmt.All
  rw [hst]
  simp only [call_eq, hq, hs, hls]
  rw [loadLoop_fail ctx s.exec (Retrieved.all ts) pre l post e 0 σ2 _ hpre hl]
  simp

/-- C4. The code at the failing input: the scan yields the collection 7, 8 and the
only loader fails; `QueryStmt.All` returns the nil collection with the loader's
error, not the scanned collection, whereas `QueryStmt.One` on the same statement
returns the scanned value with the error. -/
theorem C4_All_loader_failure_returns_nil :
    QueryStmt.All Sample.scanLib Sample.hookable
        (Sample.queryStmt [Sample.failLoader "load"]) "ctx" [1] Sample.world0 =
      some (⟨2, [Call.QueryContext "ctx" [1], Call.AllFromRows "ctx" (some 5),
                 Call.Load 0 "ctx" (some "db") (Retrieved.all (some [7, 8]))]⟩,
            (none, some "load")) ∧
    QueryStmt.One Sample.scanLib Sample.hookable
        (Sample.queryStmt [Sample.failLoader "load"]) "ctx" [1] Sample.world0 =
      some (⟨2, [Call.QueryContext "ctx" [1], Call.OneFromRows "ctx" (some 5),
                 Call.Load 0 "ctx" (some "db") (Retrieved.one 7)]⟩,
            (7, some "load")) :=
  ⟨rfl, rfl⟩

/-- C5, counterexample. A statement prepared from a query that renders three
arguments has `lenArgs = 3`; executed with two arguments on a prepared statement
that accepts them, `Stmt.Exec` returns the result and the nil error. -/
theorem C5_Exec_accepts_wrong_count :
    (Prepare Sample.build "ctx" Sample.preparer (Sample.query []) Sample.world0).2.1.lenArgs = 3 ∧
    ([1, 2] : List Nat).length = 2 ∧
    Stmt.Exec (Prepare Sample.build "ctx" Sample.preparer (Sample.query []) Sample.world0).2.1
        "ctx" [1, 2] Sample.world0 =
      some (⟨1, [Call.ExecContext "ctx" [1, 2]]⟩, (some 2, none)) :=
  ⟨rfl, rfl, rfl⟩

/-- C5, amended. `Stmt.Exec` makes no argument-count check: its outcome is the same
whatever `lenArgs` is; the arguments go unchanged to `ExecContext`, whose error is
returned as it is, and when `ExecContext` and all loaders succeed the result of
`ExecContext` is returned with the nil error, whatever the number of arguments. -/
theorem C5_Exec_ignores_lenArgs (s : Stmt σ Ctx X Arg Res Rows T ε)
    (ctx : Ctx) (args : List Arg) (w : World σ (Call Ctx X Arg Rows Link T QT)) :
    (∀ n : Int, Stmt.Exec { s with lenArgs := n } ctx args w = Stmt.Exec s ctx args w) ∧
    (∀ (st : Statement σ Ctx Arg Res Rows ε) (e : ε), s.stmt = some st →
      (st.ExecContext ctx args w.state).2.2 = some e →
      Stmt.Exec s ctx args w =
        some (⟨(st.ExecContext ctx args w.state).1, w.trace ++ [Call.ExecContext ctx args]⟩,
              (none, some e))) ∧
    (∀ (st : Statement σ Ctx Arg Res Rows ε), s.stmt = some st →
      (st.ExecContext ctx args w.state).2.2 = none →
      allSucceed (loadActs ctx s.exec Retrieved.nil (elems s.loaders))
        (st.ExecContext ctx args w.state).1 →
      Stmt.Exec s ctx args w =
        some (⟨stateAfter (loadActs ctx s.exec Retrieved.nil (elems s.loaders))
                 (st.ExecContext ctx args w.state).1,
               w.trace ++ [Call.ExecContext ctx args]
                 ++ loadCalls ctx s.exec Retrieved.nil 0 (elems s.loaders).length⟩,
              ((st.ExecContext ctx args w.state).2.1, none))) := by
  obtain ⟨st0, tr⟩ := w
  refine ⟨fun n => rfl, ?_, ?_⟩
  · intro st e hst he
    simp only at he
    unfold Stmt.Exec
    rw [hst]
    simp only [call_eq]
    rcases hx : st.ExecContext ctx args st0 with ⟨σ1, result, err⟩
    rw [hx] at he
    simp only at he
    subst he
    rfl
  · intro st hst he hl
    simp only at he hl
    unfold Stmt.Exec
    rw [hst]
    simp only [call_eq]
    rcases hx : st.ExecContext ctx args st0 with ⟨σ1, result, err⟩
    rw [hx] at he hl
    simp only at he hl
    subst he
    simp only
    rw [loadLoop_ok ctx s.exec Retrieved.nil (elems s.loaders) 0 σ1 _ hl]

/-- Witness of C5 (amended): two arguments against `lenArgs = 3`, two loaders. -/
theorem C5_Exec_ignores_lenArgs_witness :
    Stmt.Exec { Sample.stmtOf [Sample.addLoader 1, Sample.addLoader 10] with lenArgs := 3 }
        "ctx" [1, 2] Sample.world0 =
      some (⟨12, [Call.ExecContext "ctx" [1, 2],
                  Call.Load 0 "ctx" (some "db") Retrieved.nil,
                  Call.Load 1 "ctx" (some "db") Retrieved.nil]⟩,
            (some 2, none)) :=
  (C5_Exec_ignores_lenArgs
    { Sample.stmtOf [Sample.addLoader 1, Sample.addLoader 10] with lenArgs := 3 }
    "ctx" [1, 2] Sample.world0).2.2 Sample.statement rfl rfl ⟨rfl, rfl, trivial⟩

/-- The hook step of Prepare when the hooks have run without error. -/
theorem hooks_step (q : Query σ Ctx X T ε) (ctx : Ctx) (x : X) (st σ1 : σ) (ctx1 : Ctx)
    (tr calls : List (Call Ctx X Arg Rows Link T QT))
    (hd : hooksDone q ctx x st σ1 ctx1 calls) :
    (match q.RunHooks with
      | some h => World.call ⟨st, tr⟩ (Call.RunHooks ctx x) (h ctx x)
      | none => ((⟨st, tr⟩ : World σ (Call Ctx X Arg Rows Link T QT)), (ctx, none))) =
      ((⟨σ1, tr ++ calls⟩ : World σ (Call Ctx X Arg Rows Link T QT)), (ctx1, (none : Option ε))) := by
  unfold hooksDone at hd
  cases hq : q.RunHooks with
  | none =>
    rw [hq] at hd
    obtain ⟨rfl, rfl, rfl⟩ := hd
    simp
  | some h =>
    rw [hq] at hd
    obtain ⟨h1, rfl⟩ := hd
    simp [call_eq, h1]

/-- C6. If Prepare fails at one of its three steps it returns the zero Stmt with the
error of that step, and the calls it has made end with the failing step: a failing
`RunHooks` is the only call; a failing `Build` comes after the hooks (if any) and
nothing follows it; a failing `PrepareContext` comes after the hooks and `Build`. -/
theorem C6_Prepare_failure
    (Build : Ctx → Query σ Ctx X T ε → σ → σ × (String × List Arg × Option ε))
    (ctx : Ctx) (exec : Preparer σ Ctx X Arg Res Rows ε) (q : Query σ Ctx X T ε)
    (w : World σ (Call Ctx X Arg Rows Link T QT)) :
    (∀ (h : Ctx → X → σ → σ × (Ctx × Option ε)) (e : ε), q.RunHooks = some h →
      (h ctx exec.executor w.state).2.2 = some e →
      Prepare Build ctx exec q w =
        (⟨(h ctx exec.executor w.state).1, w.trace ++ [Call.RunHooks ctx exec.executor]⟩,
          (Stmt.zero, some e))) ∧
    (∀ (σ1 : σ) (ctx1 : Ctx) (calls : List (Call Ctx X Arg Rows Link T QT)) (e : ε),
      hooksDone q ctx exec.executor w.state σ1 ctx1 calls →
      (Build ctx1 q σ1).2.2.2 = some e →
      Prepare Build ctx exec q w =
        (⟨(Build ctx1 q σ1).1, w.trace ++ calls ++ [Call.Build ctx1]⟩,
          (Stmt.zero, some e))) ∧
    (∀ (σ1 : σ) (ctx1 : Ctx) (calls : List (Call Ctx X Arg Rows Link T QT)) (σ2 : σ)
      (query : String) (args : List Arg) (e : ε),
      hooksDone q ctx exec.executor w.state σ1 ctx1 calls →
      Build ctx1 q σ1 = (σ2, (query, args, none)) →
      (exec.PrepareContext ctx1 query σ2).2.2 = some e →
      Prepare Build ctx exec q w =
        (⟨(exec.PrepareContext ctx1 query σ2).1,
           w.trace ++ calls ++ [Call.Build ctx1, Call.PrepareContext ctx1 query]⟩,
          (Stmt.zero, some e))) := by
  obtain ⟨st0, tr⟩ := w
  refine ⟨?_, ?_, ?_⟩
  · intro h e hq he
    simp only at he
    unfold Prepare
    rw [hq]
    simp only [call_eq]
    rcases hx : h ctx exec.executor st0 with ⟨σ1, ctx1, err⟩
    rw [hx] at he
    simp only at he
    subst he
    rfl
  · intro σ1 ctx1 calls e hd he
    unfold Prepare
    rw [hooks_step q ctx exec.executor st0 σ1 ctx1 tr calls hd]
    simp only [call_eq]
    rcases hx : Build ctx1 q σ1 with ⟨σ2, query, args, err⟩
    rw [hx] at he
    simp only at he
    subst he
    rfl
  · intro σ1 ctx1 calls σ2 query args e hd hb he
    unfold Prepare
    rw [hooks_step q ctx exec.executor st0 σ1 ctx1 tr calls hd]
    simp only [call_eq, hb]
    rcases hx : exec.PrepareContext ctx1 query σ2 with ⟨σ3, stmt, err⟩
    rw [hx] at he
    simp only at he
    subst he
    simp

/-- Witness of C6: a failing hook, a failing rendering, a failing `PrepareContext`. -/
theorem C6_Prepare_failure_witness :
    (Prepare Sample.build "ctx" Sample.preparer Sample.queryHookFails Sample.world0 =
      (⟨1, [Call.RunHooks "ctx" "db"]⟩, (Stmt.zero, some "hook"))) ∧
    (Prepare Sample.buildFails "ctx" Sample.preparer (Sample.query []) Sample.world0 =
      (⟨2, [Call.RunHooks "ctx" "db", Call.Build "ctx+hooks"]⟩, (Stmt.zero, some "render"))) ∧
    (Prepare Sample.build "ctx" Sample.preparerFails (Sample.query []) Sample.world0 =
      (⟨3, [Call.RunHooks "ctx" "db", Call.Build "ctx+hooks",
            Call.PrepareContext "ctx+hooks" "SELECT ?, ?, ?"]⟩, (Stmt.zero, some "prepare"))) :=
  ⟨(C6_Prepare_failure Sample.build "ctx" Sample.preparer Sample.queryHookFails
      Sample.world0).1 _ "hook" rfl rfl,
   (C6_Prepare_failure Sample.buildFails "ctx" Sample.preparer (Sample.query [])
      Sample.world0).2.1 1 "ctx+hooks" [Call.RunHooks "ctx" "db"] "render" ⟨rfl, rfl⟩ rfl,
   (C6_Prepare_failure Sample.build "ctx" Sample.preparerFails (Sample.query [])
      Sample.world0).2.2 1 "ctx+hooks" [Call.RunHooks "ctx" "db"] 2 "SELECT ?, ?, ?" [1, 2, 3]
      "prepare" ⟨rfl, rfl⟩ rfl rfl⟩

/-- C7. When the hooks (if any), the rendering and `PrepareContext` succeed, Prepare
returns, with the nil error, the Stmt whose handle is the one `PrepareContext`
returned for the rendered text, whose executor is the one given, whose `lenArgs` is
the number of rendered arguments, and whose loaders are a fresh slice with the
declared loaders of a Loadable query (same order, same length) and the nil slice
otherwise; in both cases an empty list when none is declared. -/
theorem C7_Prepare_success
    (Build : Ctx → Query σ Ctx X T ε → σ → σ × (String × List Arg × Option ε))
    (ctx : Ctx) (exec : Preparer σ Ctx X Arg Res Rows ε) (q : Query σ Ctx X T ε)
    (w : World σ (Call Ctx X Arg Rows Link T QT))
    (σ1 : σ) (ctx1 : Ctx) (calls : List (Call Ctx X Arg Rows Link T QT)) (σ2 σ3 : σ)
    (query : String) (args : List Arg) (stmt : Option (Statement σ Ctx Arg Res Rows ε))
    (hd : hooksDone q ctx exec.executor w.state σ1 ctx1 calls)
    (hb : Build ctx1 q σ1 = (σ2, (query, args, none)))
    (hp : exec.PrepareContext ctx1 query σ2 = (σ3, (stmt, none))) :
    (Prepare Build ctx exec q w).1 =
      ⟨σ3, w.trace ++ calls ++ [Call.Build ctx1, Call.PrepareContext ctx1 query]⟩ ∧
    (Prepare Build ctx exec q w).2.2 = none ∧
    (Prepare Build ctx exec q w).2.1.stmt = stmt ∧
    (Prepare Build ctx exec q w).2.1.exec = some exec.executor ∧
    (Prepare Build ctx exec q w).2.1.lenArgs = (args.length : Int) ∧
    (∀ ls, q.GetLoaders = some ls →
      (Prepare Build ctx exec q w).2.1.loaders = some (elems ls) ∧
      elems (Prepare Build ctx exec q w).2.1.loaders = elems ls ∧
      (elems (Prepare Build ctx exec q w).2.1.loaders).length = (elems ls).length) ∧
    (q.GetLoaders = none →
      (Prepare Build ctx exec q w).2.1.loaders = none ∧
      elems (Prepare Build ctx exec q w).2.1.loaders = []) := by
  obtain ⟨st0, tr⟩ := w
  have hP : Prepare Build ctx exec q ⟨st0, tr⟩ =
      (⟨σ3, tr ++ calls ++ [Call.Build ctx1, Call.PrepareContext ctx1 query]⟩,
        ({ stmt := stmt, exec := some exec.executor, lenArgs := (args.length : Int),
           loaders := match q.GetLoaders with
             | some loaders => some (elems loaders)
             | none => none }, none)) := by
    unfold Prepare
    rw [hooks_step q ctx exec.executor st0 σ1 ctx1 tr calls hd]
    simp only [call_eq, hb, hp]
    simp
  rw [hP]
  refine ⟨rfl, rfl, rfl, rfl, rfl, ?_, ?_⟩
  · intro ls hls
    simp [hls, elems]
  · intro hls
    simp [hls, elems]

/-- Witness of C7: a hookable query that renders three arguments and declares two loaders. -/
theorem C7_Prepare_success_witness :
    (Prepare Sample.build "ctx" Sample.preparer
        (Sample.query [Sample.addLoader 1, Sample.addLoader 10]) Sample.world0).1 =
      ⟨3, [Call.RunHooks "ctx" "db", Call.Build "ctx+hooks",
           Call.PrepareContext "ctx+hooks" "SELECT ?, ?, ?"]⟩ ∧
    (Prepare Sample.build "ctx" Sample.preparer
        (Sample.query [Sample.addLoader 1, Sample.addLoader 10]) Sample.world0).2.1.lenArgs = 3 ∧
    elems (Prepare Sample.build "ctx" Sample.preparer
        (Sample.query [Sample.addLoader 1, Sample.addLoader 10]) Sample.world0).2.1.loaders =
      [Sample.addLoader 1, Sample.addLoader 10] :=
  have h := C7_Prepare_success Sample.build "ctx" Sample.preparer
    (Sample.query [Sample.addLoader 1, Sample.addLoader 10]) Sample.world0
    1 "ctx+hooks" [Call.RunHooks "ctx" "db"] 2 3 "SELECT ?, ?, ?" [1, 2, 3]
    (some Sample.statement) ⟨rfl, rfl⟩ rfl rfl
  ⟨h.1, h.2.2.2.2.1, (h.2.2.2.2.2.1 _ rfl).2.1⟩

/-- The hook dispatch of `QueryStmt.All` when the query, the scan and all loaders
succeed: the loaders at positions 0, ..., n-1 are called once each on the whole
collection and then, if the collection passes the assertion, `AfterQueryHook` is
called once, on the collection, and its error returned; otherwise, if every value
of the element type passes the assertion, its zero value included (a non-interface
element type with the hook), `AfterQueryHook` is called on the elements in
collection order, on all of them when every hook succeeds and up to the first
failing one otherwise, whose error is returned; if neither the collection nor the
zero value of the element type passes the assertion, no hook is called, whatever
the elements are, and the collection is returned with the nil error. -/
theorem All_hook_dispatch (lib : Scan σ Ctx Rows Link B T ε)
    (H : HookableType σ Ctx X T QT ε) (s : QueryStmt σ Ctx X Arg Res Rows Link B T QT ε)
    (ctx : Ctx) (args : List Arg) (w : World σ (Call Ctx X Arg Rows Link T QT))
    (st : Statement σ Ctx Arg Res Rows ε) (rows : Option Rows) (ts : Slice T) (σ1 σ2 : σ)
    (hst : s.stmt = some st)
    (hq : st.QueryContext ctx args w.state = (σ1, (rows, none)))
    (hs : lib.AllFromRows ctx s.mapper rows σ1 = (σ2, (ts, none)))
    (hl : allSucceed (loadActs ctx s.exec (Retrieved.all ts) (elems s.loaders)) σ2) :
    (∀ h : HookFn σ Ctx X QT ε, H.ofTs ts = some h →
      QueryStmt.All lib H s ctx args w =
        some (⟨(h ctx s.exec s.queryType
                  (stateAfter (loadActs ctx s.exec (Retrieved.all ts) (elems s.loaders)) σ2)).1,
               w.trace ++ [Call.QueryContext ctx args, Call.AllFromRows ctx rows]
                 ++ loadCalls ctx s.exec (Retrieved.all ts) 0 (elems s.loaders).length
                 ++ [Call.AfterQueryHook (Retrieved.all ts) ctx s.exec s.queryType]⟩,
              (ts, (h ctx s.exec s.queryType
                  (stateAfter (loadActs ctx s.exec (Retrieved.all ts) (elems s.loaders)) σ2)).2))) ∧
    (∀ hook : T → HookFn σ Ctx X QT ε, H.ofTs ts = none → (∀ t, H.ofT t = some (hook t)) →
      allSucceed (hookActs hook ctx s.exec s.queryType (elems ts))
        (stateAfter (loadActs ctx s.exec (Retrieved.all ts) (elems s.loaders)) σ2) →
      QueryStmt.All lib H s ctx args w =
        some (⟨stateAfter (hookActs hook ctx s.exec s.queryType (elems ts))
                 (stateAfter (loadActs ctx s.exec (Retrieved.all ts) (elems s.loaders)) σ2),
               w.trace ++ [Call.QueryContext ctx args, Call.AllFromRows ctx rows]
                 ++ loadCalls ctx s.exec (Retrieved.all ts) 0 (elems s.loaders).length
                 ++ hookCalls ctx s.exec s.queryType (elems ts)⟩,
              (ts, none))) ∧
    (∀ (hook : T → HookFn σ Ctx X QT ε) (pre : List T) (t : T) (post : List T) (e : ε),
      H.ofTs ts = none → (∀ t, H.ofT t = some (hook t)) →
      elems ts = pre ++ t :: post →
      allSucceed (hookActs hook ctx s.exec s.queryType pre)
        (stateAfter (loadActs ctx s.exec (Retrieved.all ts) (elems s.loaders)) σ2) →
      (hook t ctx s.exec s.queryType (stateAfter (hookActs hook ctx s.exec s.queryType pre)
        (stateAfter (loadActs ctx s.exec (Retrieved.all ts) (elems s.loaders)) σ2))).2 = some e →
      QueryStmt.All lib H s ctx args w =
        some (⟨(hook t ctx s.exec s.queryType (stateAfter (hookActs hook ctx s.exec s.queryType pre)
                 (stateAfter (loadActs ctx s.exec (Retrieved.all ts) (elems s.loaders)) σ2))).1,
               w.trace ++ [Call.QueryContext ctx args, Call.AllFromRows ctx rows]
                 ++ loadCalls ctx s.exec (Retrieved.all ts) 0 (elems s.loaders).length
                 ++ hookCalls ctx s.exec s.queryType (pre ++ [t])⟩,
              (ts, some e))) ∧
    (H.ofTs ts = none → H.ofT H.zero = none →
      QueryStmt.All lib H s ctx args w =
        some (⟨stateAfter (loadActs ctx s.exec (Retrieved.all ts) (elems s.loaders)) σ2,
               w.trace ++ [Call.QueryContext ctx args, Call.AllFromRows ctx rows]
                 ++ loadCalls ctx s.exec (Retrieved.all ts) 0 (elems s.loaders).length⟩,
              (ts, none))) := by
  obtain ⟨st0, tr⟩ := w
  simp only at hq
  refine ⟨?_, ?_, ?_, ?_⟩
  · intro h hh
    unfold QueryStmt.All
    rw [hst]
    simp only [call_eq, hq, hs]
    rw [loadLoop_ok ctx s.exec (Retrieved.all ts) (elems s.loaders) 0 σ2 _ hl]
    simp only [hh, call_eq]
    cases hr : (h ctx s.exec s.queryType
      (stateAfter (loadActs ctx s.exec (Retrieved.all ts) (elems s.loaders)) σ2)).2 <;>
      simp [hr]
  · intro hook hc hH hok
    unfold QueryStmt.All
    rw [hst]
    simp only [call_eq, hq, hs]
    rw [loadLoop_ok ctx s.exec (Retrieved.all ts) (elems s.loaders) 0 σ2 _ hl]
    simp only [hc, hH H.zero]
    rw [hookLoop_ok H hook hH ctx s.exec s.queryType (elems ts) _ _ hok]
    simp
  · intro hook pre t post e hc hH hsplit hok he
    unfold QueryStmt.All
    rw [hst]
    simp only [call_eq, hq, hs]
    rw [loadLoop_ok ctx s.exec (Retrieved.all ts) (elems s.loaders) 0 σ2 _ hl]
    simp only [hc, hH H.zero, hsplit]
    rw [hookLoop_fail H hook hH ctx s.exec s.queryType pre t post e _ _ hok he]
    simp
  · intro hc hz
    unfold QueryStmt.All
    rw [hst]
    simp only [call_eq, hq, hs]
    rw [loadLoop_ok ctx s.exec (Retrieved.all ts) (elems s.loaders) 0 σ2 _ hl]
    simp only [hc, hz]
    simp

/-- The hook dispatch of `QueryStmt.All` at four inputs: a collection hook; element
hooks on 7 and 8; element hooks on 7, 8, 9 of which the one on 8 fails; no hook. -/
theorem All_hook_dispatch_at_samples :
    (QueryStmt.All Sample.scanLib Sample.hookableColl (Sample.queryStmt [Sample.addLoader 1])
        "ctx" [1] Sample.world0 =
      some (⟨103, [Call.QueryContext "ctx" [1], Call.AllFromRows "ctx" (some 5),
                   Call.Load 0 "ctx" (some "db") (Retrieved.all (some [7, 8])),
                   Call.AfterQueryHook (Retrieved.all (some [7, 8])) "ctx" (some "db") "SELECT"]⟩,
            (some [7, 8], none))) ∧
    (QueryStmt.All Sample.scanLib Sample.hookable (Sample.queryStmt [Sample.addLoader 1])
        "ctx" [1] Sample.world0 =
      some (⟨203, [Call.QueryContext "ctx" [1], Call.AllFromRows "ctx" (some 5),
                   Call.Load 0 "ctx" (some "db") (Retrieved.all (some [7, 8])),
                   Call.AfterQueryHook (Retrieved.one 7) "ctx" (some "db") "SELECT",
                   Call.AfterQueryHook (Retrieved.one 8) "ctx" (some "db") "SELECT"]⟩,
            (some [7, 8], none))) ∧
    (QueryStmt.All Sample.scanLib3 Sample.hookablePicky (Sample.queryStmt [Sample.addLoader 1])
        "ctx" [1] Sample.world0 =
      some (⟨103, [Call.QueryContext "ctx" [1], Call.AllFromRows "ctx" (some 5),
                   Call.Load 0 "ctx" (some "db") (Retrieved.all (some [7, 8, 9])),
                   Call.AfterQueryHook (Retrieved.one 7) "ctx" (some "db") "SELECT",
                   Call.AfterQueryHook (Retrieved.one 8) "ctx" (some "db") "SELECT"]⟩,
            (some [7, 8, 9], some "eight"))) ∧
    (QueryStmt.All Sample.scanLib Sample.unhookable (Sample.queryStmt [Sample.addLoader 1])
        "ctx" [1] Sample.world0 =
      some (⟨3, [Call.QueryContext "ctx" [1], Call.AllFromRows "ctx" (some 5),
                 Call.Load 0 "ctx" (some "db") (Retrieved.all (some [7, 8]))]⟩,
            (some [7, 8], none))) :=
  ⟨(All_hook_dispatch Sample.scanLib Sample.hookableColl
      (Sample.queryStmt [Sample.addLoader 1]) "ctx" [1] Sample.world0 Sample.statement (some 5)
      (some [7, 8]) 1 2 rfl rfl rfl ⟨rfl, trivial⟩).1 Sample.hook rfl,
   (All_hook_dispatch Sample.scanLib Sample.hookable
      (Sample.queryStmt [Sample.addLoader 1]) "ctx" [1] Sample.world0 Sample.statement (some 5)
      (some [7, 8]) 1 2 rfl rfl rfl ⟨rfl, trivial⟩).2.1 (fun _ => Sample.hook) rfl
      (fun _ => rfl) ⟨rfl, rfl, trivial⟩,
   (All_hook_dispatch Sample.scanLib3 Sample.hookablePicky
      (Sample.queryStmt [Sample.addLoader 1]) "ctx" [1] Sample.world0 Sample.statement (some 5)
      (some [7, 8, 9]) 1 2 rfl rfl rfl ⟨rfl, trivial⟩).2.2.1 Sample.pickyHook [7] 8 [9] "eight"
      rfl (fun _ => rfl) rfl ⟨rfl, trivial⟩ rfl,
   (All_hook_dispatch Sample.scanLib Sample.unhookable
      (Sample.queryStmt [Sample.addLoader 1]) "ctx" [1] Sample.world0 Sample.statement (some 5)
      (some [7, 8]) 1 2 rfl rfl rfl ⟨rfl, trivial⟩).2.2.2 rfl rfl⟩

/-- C8. The code at the failing input: the element type is an interface type with the
hook (its zero value, the nil interface, fails the assertion, the elements 7 and 8
pass it) and the collection type has no hook; the query, the scan and the loader
succeed. `QueryStmt.All` calls the loader once on the whole collection and then no
`AfterQueryHook` at all, although every element has the hook, whereas
`QueryStmt.One` on the same statement calls the hook of the element it scans. -/
theorem C8_All_skips_hooks_of_interface_elements :
    Sample.hookableIface.ofTs (some [7, 8]) = none ∧
    Sample.hookableIface.ofT 7 = some Sample.hook ∧
    Sample.hookableIface.ofT 8 = some Sample.hook ∧
    QueryStmt.All Sample.scanLib Sample.hookableIface (Sample.queryStmt [Sample.addLoader 1])
        "ctx" [1] Sample.world0 =
      some (⟨3, [Call.QueryContext "ctx" [1], Call.AllFromRows "ctx" (some 5),
                 Call.Load 0 "ctx" (some "db") (Retrieved.all (some [7, 8]))]⟩,
            (some [7, 8], none)) ∧
    QueryStmt.One Sample.scanLib Sample.hookableIface (Sample.queryStmt [Sample.addLoader 1])
        "ctx" [1] Sample.world0 =
      some (⟨103, [Call.QueryContext "ctx" [1], Call.OneFromRows "ctx" (some 5),
                   Call.Load 0 "ctx" (some "db") (Retrieved.one 7),
                   Call.AfterQueryHook (Retrieved.one 7) "ctx" (some "db") "SELECT"]⟩,
            (7, none)) :=
  ⟨rfl, rfl, rfl, rfl, rfl⟩

/-- C9. `QueryStmt.Cursor` hands the cursor the mapper `m2`, which calls the original
mapper, keeps its before-function and wraps its row-decoding function: for each
item the wrapped function decodes with the original function; on a decode failure
it returns that error with no loader and no hook called; otherwise it runs the
loaders in order on the decoded item, returning the error of the first that fails
with nothing further called; when all succeed and `T` is hookable it calls
`AfterQueryHook` once on the item and returns its error; when `T` is not hookable it
calls no hook. -/
theorem C9_Cursor_row_function
    (CursorFromRows : Ctx → TracedMapper σ Ctx X Arg Rows Link B T QT ε → Option Rows →
      σ → σ × (Option Cur × Option ε))
    (H : HookableType σ Ctx X T QT ε) (s : QueryStmt σ Ctx X Arg Res Rows Link B T QT ε) :
    (∀ (ctx : Ctx) (args : List Arg) (w : World σ (Call Ctx X Arg Rows Link T QT))
      (st : Statement σ Ctx Arg Res Rows ε) (rows : Option Rows) (σ1 : σ),
      s.stmt = some st → st.QueryContext ctx args w.state = (σ1, (rows, none)) →
      QueryStmt.Cursor CursorFromRows H s ctx args w =
        some (World.call ⟨σ1, w.trace ++ [Call.QueryContext ctx args]⟩
          (Call.CursorFromRows ctx rows)
          (CursorFromRows ctx (QueryStmt.Cursor.m2 H s (H.ofT H.zero).isSome) rows))) ∧
    (∀ (ctx : Ctx) (c : List String) (w : World σ (Call Ctx X Arg Rows Link T QT)),
      QueryStmt.Cursor.m2 H s (H.ofT H.zero).isSome ctx c w =
        (⟨(s.mapper ctx c w.state).1, w.trace ++ [Call.Mapper ctx c]⟩,
          ((s.mapper ctx c w.state).2.1,
            QueryStmt.Cursor.rowFunc H s (H.ofT H.zero).isSome ctx
              (s.mapper ctx c w.state).2.2))) ∧
    (∀ (ctx : Ctx) (after : RowFunc σ Link T ε) (link : Link)
      (w : World σ (Call Ctx X Arg Rows Link T QT)) (σd : σ) (t : T),
      (∀ e : ε, after link w.state = (σd, (t, some e)) →
        QueryStmt.Cursor.rowFunc H s (H.ofT H.zero).isSome ctx after link w =
          some (⟨σd, w.trace ++ [Call.RowFunc link]⟩, (t, some e))) ∧
      (∀ (pre : List (Loader σ Ctx X T ε)) (l : Loader σ Ctx X T ε)
        (post : List (Loader σ Ctx X T ε)) (e : ε),
        after link w.state = (σd, (t, none)) →
        elems s.loaders = pre ++ l :: post →
        allSucceed (loadActs ctx s.exec (Retrieved.one t) pre) σd →
        (l.Load ctx s.exec (Retrieved.one t)
          (stateAfter (loadActs ctx s.exec (Retrieved.one t) pre) σd)).2 = some e →
        QueryStmt.Cursor.rowFunc H s (H.ofT H.zero).isSome ctx after link w =
          some (⟨(l.Load ctx s.exec (Retrieved.one t)
                   (stateAfter (loadActs ctx s.exec (Retrieved.one t) pre) σd)).1,
                 w.trace ++ [Call.RowFunc link]
                   ++ loadCalls ctx s.exec (Retrieved.one t) 0 (pre.length + 1)⟩,
                (t, some e))) ∧
      (∀ hook : T → HookFn σ Ctx X QT ε,
        after link w.state = (σd, (t, none)) →
        allSucceed (loadActs ctx s.exec (Retrieved.one t) (elems s.loaders)) σd →
        (∀ t, H.ofT t = some (hook t)) →
        QueryStmt.Cursor.rowFunc H s (H.ofT H.zero).isSome ctx after link w =
          some (⟨(hook t ctx s.exec s.queryType
                   (stateAfter (loadActs ctx s.exec (Retrieved.one t) (elems s.loaders)) σd)).1,
                 w.trace ++ [Call.RowFunc link]
                   ++ loadCalls ctx s.exec (Retrieved.one t) 0 (elems s.loaders).length
                   ++ [Call.AfterQueryHook (Retrieved.one t) ctx s.exec s.queryType]⟩,
                (t, (hook t ctx s.exec s.queryType
                   (stateAfter (loadActs ctx s.exec (Retrieved.one t) (elems s.loaders)) σd)).2))) ∧
      (after link w.state = (σd, (t, none)) →
        allSucceed (loadActs ctx s.exec (Retrieved.one t) (elems s.loaders)) σd →
        H.ofT H.zero = none →
        QueryStmt.Cursor.rowFunc H s (H.ofT H.zero).isSome ctx after link w =
          some (⟨stateAfter (loadActs ctx s.exec (Retrieved.one t) (elems s.loaders)) σd,
                 w.trace ++ [Call.RowFunc link]
                   ++ loadCalls ctx s.exec (Retrieved.one t) 0 (elems s.loaders).length⟩,
                (t, none)))) := by
  refine ⟨?_, ?_, ?_⟩
  · intro ctx args w st rows σ1 hst hq
    obtain ⟨st0, tr⟩ := w
    simp only at hq
    unfold QueryStmt.Cursor
    rw [hst]
    simp only [call_eq, hq]
  · intro ctx c w
    rfl
  · intro ctx after link w σd t
    obtain ⟨st0, tr⟩ := w
    refine ⟨?_, ?_, ?_, ?_⟩
    · intro e hd
      simp only at hd
      unfold QueryStmt.Cursor.rowFunc
      simp only [call_eq, hd]
    · intro pre l post e hd hls hpre hl
      simp only at hd
      unfold QueryStmt.Cursor.rowFunc
      simp only [call_eq, hd, hls]
      rw [loadLoop_fail ctx s.exec (Retrieved.one t) pre l post e 0 σd _ hpre hl]
    · intro hook hd hok hH
      simp only at hd
      unfold QueryStmt.Cursor.rowFunc
      simp only [call_eq, hd]
      rw [loadLoop_ok ctx s.exec (Retrieved.one t) (elems s.loaders) 0 σd _ hok]
      simp only [hH, Option.isSome_some, if_true, call_eq]
      cases hr : (hook t ctx s.exec s.queryType
        (stateAfter (loadActs ctx s.exec (Retrieved.one t) (elems s.loaders)) σd)).2 <;>
        simp [hr]
    · intro hd hok hz
      simp only at hd
      unfold QueryStmt.Cursor.rowFunc
      simp only [call_eq, hd]
      rw [loadLoop_ok ctx s.exec (Retrieved.one t) (elems s.loaders) 0 σd _ hok]
      simp [hz]

/-- Witness of C9: the item 42 is decoded, loaded twice, then hooked; a failing decode
calls nothing more; a failing first loader stops the item. -/
theorem C9_Cursor_row_function_witness :
    ((QueryStmt.Cursor.m2 Sample.hookable
        (Sample.queryStmt [Sample.addLoader 1, Sample.addLoader 10])
        (Sample.hookable.ofT Sample.hookable.zero).isSome "ctx" ["id"] Sample.world0).2.2
        42 Sample.world0 =
      some (⟨112, [Call.RowFunc 42,
                   Call.Load 0 "ctx" (some "db") (Retrieved.one 42),
                   Call.Load 1 "ctx" (some "db") (Retrieved.one 42),
                   Call.AfterQueryHook (Retrieved.one 42) "ctx" (some "db") "SELECT"]⟩,
            (42, none))) ∧
    (QueryStmt.Cursor.rowFunc Sample.hookable
        (Sample.queryStmt [Sample.addLoader 1, Sample.addLoader 10])
        (Sample.hookable.ofT Sample.hookable.zero).isSome "ctx"
        (fun _ st => (st + 1, (0, some "decode"))) 42 Sample.world0 =
      some (⟨1, [Call.RowFunc 42]⟩, (0, some "decode"))) ∧
    (QueryStmt.Cursor.rowFunc Sample.hookable
        (Sample.queryStmt [Sample.failLoader "first", Sample.addLoader 10])
        (Sample.hookable.ofT Sample.hookable.zero).isSome "ctx"
        (fun link st => (st + 1, (link, none))) 42 Sample.world0 =
      some (⟨1, [Call.RowFunc 42, Call.Load 0 "ctx" (some "db") (Retrieved.one 42)]⟩,
            (42, some "first"))) :=
  ⟨((C9_Cursor_row_function Sample.cursorFromRows Sample.hookable
      (Sample.queryStmt [Sample.addLoader 1, Sample.addLoader 10])).2.2 "ctx"
      (fun link st => (st + 1, (link, none))) 42 Sample.world0 1 42).2.2.1
      (fun _ => Sample.hook) rfl ⟨rfl, rfl, trivial⟩ (fun _ => rfl),
   ((C9_Cursor_row_function Sample.cursorFromRows Sample.hookable
      (Sample.queryStmt [Sample.addLoader 1, Sample.addLoader 10])).2.2 "ctx"
      (fun _ st => (st + 1, (0, some "decode"))) 42 Sample.world0 1 0).1 "decode" rfl,
   ((C9_Cursor_row_function Sample.cursorFromRows Sample.hookable
      (Sample.queryStmt [Sample.failLoader "first", Sample.addLoader 10])).2.2 "ctx"
      (fun link st => (st + 1, (link, none))) 42 Sample.world0 1 42).2.1
      [] (Sample.failLoader "first") [Sample.addLoader 10] "first" rfl rfl trivial rfl⟩

end claims

/-! ## The FROM chain: claims -/

section fromClaims

open dialect

/-- What `FromChain.Apply` does to any target is what its record of calls does. -/
theorem Apply_eq_runCalls {Q A : Type} (I : fromable Q A) (f : FromChain A) (q : Q) :
    FromChain.Apply I f q = runCalls I (FromChain.Apply (recorder A) f []) q := by
  unfold FromChain.Apply
  by_cases h : (f ()).Alias = "" <;> simp [h, runCalls, recorder, FromCall.run]

/-- The calls `FromChain.Apply` makes: among them no `AppendIndexHint`. -/
theorem Apply_recorder {A : Type} (f : FromChain A) (q : List (FromCall A)) :
    FromChain.Apply (recorder A) f q =
      q ++ [FromCall.SetTable (f ()).Table]
        ++ (if (f ()).Alias ≠ "" then
              [FromCall.SetTableAlias (f ()).Alias (f ()).Columns] else [])
        ++ [FromCall.SetLateral (f ()).Lateral, FromCall.AppendPartition (f ()).Partitions] := by
  unfold FromChain.Apply
  by_cases h : (f ()).Alias = "" <;> simp [h, recorder]

/-- The index hints of a chain have no influence on what `FromChain.Apply` does. -/
theorem Apply_ignores_IndexHints {Q A : Type} (I : fromable Q A) (f : FromChain A)
    (hints : List clause.IndexHint) (q : Q) :
    FromChain.Apply I (fun _ => { f () with IndexHints := hints }) q = FromChain.Apply I f q :=
  rfl

/-- C10. The code at the failing input: the chain
`From("users").As("u").UseIndex("idx_users_email")` holds the hint
USE INDEX (idx_users_email), but `FromChain.Apply` makes the four calls SetTable,
SetTableAlias, SetLateral, AppendPartition and no `AppendIndexHint`: a target that
keeps its FROM clause ends with table users, alias u and no index hint. -/
theorem C10_Apply_drops_index_hints :
    Sample.usersChain () =
      { Table := some "users", Alias := "u", Columns := [], Lateral := false,
        Partitions := [],
        IndexHints := [{ Type_ := "USE", Indexes := ["idx_users_email"], For := "" }] } ∧
    FromChain.Apply (recorder String) Sample.usersChain [] =
      [FromCall.SetTable (some "users"), FromCall.SetTableAlias "u" [],
       FromCall.SetLateral false, FromCall.AppendPartition []] ∧
    FromChain.Apply (keeper String) Sample.usersChain Sample.emptyFrom =
      { Table := some "users", Alias := "u", Columns := [], Lateral := false,
        Partitions := [], IndexHints := [] } := by
  refine ⟨rfl, ?_, ?_⟩ <;> decide

end fromClaims

/-! ## Lemmas on slices and `append` -/

namespace mem

variable {α : Type}

theorem cells_set_self (m : Mem α) (i : Nat) (a : List α) (h : i < m.length) :
    cells (m.set i a) i = a := by
  simp [cells, h]

theorem cells_set_ne (m : Mem α) (i j : Nat) (a : List α) (h : i ≠ j) :
    cells (m.set i a) j = cells m j := by
  simp [cells, h]

theorem cells_of_le (m : Mem α) (i : Nat) (h : m.length ≤ i) : cells m i = [] := by
  simp [cells, List.getElem?_eq_none h]

theorem cells_append_left (m : Mem α) (a : List α) (i : Nat) (h : i < m.length) :
    cells (m ++ [a]) i = cells m i := by
  simp [cells, List.getElem?_append_left h]

theorem cells_append_new (m : Mem α) (a : List α) : cells (m ++ [a]) m.length = a := by
  simp [cells]

theorem take_overwrite (l : List α) (p : Nat) (xs : List α) (h : p ≤ l.length) :
    (overwrite l p xs).take p = l.take p := by
  unfold overwrite
  rw [List.append_assoc, List.take_append_of_le_length (by simp [h])]
  simp [List.take_take]

theorem take_overwrite_new (l : List α) (p : Nat) (xs : List α) (h : p ≤ l.length) :
    (overwrite l p xs).take (p + xs.length) = l.take p ++ xs := by
  unfold overwrite
  have : (l.take p ++ xs).length = p + xs.length := by simp [h]
  rw [← this, List.take_left]

theorem length_overwrite (l : List α) (p : Nat) (xs : List α) (h : p ≤ l.length) :
    p + xs.length ≤ (overwrite l p xs).length := by
  unfold overwrite
  simp [h]

theorem length_overwrite_ge (l : List α) (p : Nat) (xs : List α) :
    l.length ≤ (overwrite l p xs).length := by
  unfold overwrite
  simp
  omega

/-- A slice `s` reads the same elements after an `append` to a slice `t` that, when it
shares the backing array of `s`, is at least as long as `s`. -/
theorem read_append_frame (grow : Nat → Nat → Nat) (m : Mem α) (s t : Hdr) (xs : List α)
    (hs : valid m s) (ht : valid m t) (hst : s.arr = t.arr → s.len ≤ t.len) :
    read (append grow m t xs).1 s = read m s := by
  obtain ⟨_, h2, _⟩ := hs
  obtain ⟨_, t2, _⟩ := ht
  unfold append
  split
  · simp only [read]
    by_cases he : t.arr = s.arr
    · by_cases hi : t.arr < m.length
      · rw [← he, cells_set_self m t.arr _ hi]
        have hle : s.len ≤ t.len := hst he.symm
        have h1 := take_overwrite (cells m t.arr) t.len xs t2
        have : List.take s.len (overwrite (cells m t.arr) t.len xs) =
            List.take s.len (List.take t.len (overwrite (cells m t.arr) t.len xs)) := by
          rw [List.take_take, Nat.min_eq_left hle]
        rw [this, h1, List.take_take, Nat.min_eq_left hle]
      · have hs : m.set t.arr (overwrite (cells m t.arr) t.len xs) = m := by
          apply List.set_eq_of_length_le; omega
        rw [hs]
    · rw [cells_set_ne m t.arr s.arr _ he]
  · simp only [read]
    by_cases hi : s.arr < m.length
    · rw [cells_append_left m _ s.arr hi]
    · have h0 : cells m s.arr = [] := cells_of_le m s.arr (by omega)
      rw [h0] at h2
      simp only [List.length_nil, Nat.le_zero_eq] at h2
      simp [h2]

/-- A slice of the memory is still one after an `append` to any slice. -/
theorem valid_append_frame (grow : Nat → Nat → Nat) (m : Mem α) (s t : Hdr) (xs : List α)
    (hs : valid m s) : valid (append grow m t xs).1 s := by
  obtain ⟨h1, h2, h3⟩ := hs
  unfold append
  split
  · refine ⟨h1, ?_, ?_⟩
    · simp only
      by_cases he : t.arr = s.arr
      · by_cases hi : t.arr < m.length
        · rw [← he, cells_set_self m t.arr _ hi]
          have := length_overwrite_ge (cells m t.arr) t.len xs
          rw [he] at this
          rw [he]
          omega
        · have hs : m.set t.arr (overwrite (cells m t.arr) t.len xs) = m := by
            apply List.set_eq_of_length_le; omega
          rw [hs]
          exact h2
      · rw [cells_set_ne m t.arr s.arr _ he]
        exact h2
    · simp only [List.length_set]
      exact h3
  · refine ⟨h1, ?_, ?_⟩
    · simp only
      by_cases hi : s.arr < m.length
      · rw [cells_append_left m _ s.arr hi]
        exact h2
      · have h0 : cells m s.arr = [] := cells_of_le m s.arr (by omega)
        rw [h0] at h2
        simp only [List.length_nil, Nat.le_zero_eq] at h2
        simp [h2]
    · simp only [List.length_append, List.length_singleton]
      omega

/-- After an `append` to `t`, the slice returned is at least as long as every slice that
shares its backing array and was no longer than `t`. -/
theorem append_covers (grow : Nat → Nat → Nat) (m : Mem α) (s t : Hdr) (xs : List α)
    (hs : valid m s) (hst : s.arr = t.arr → s.len ≤ t.len) :
    s.arr = (append grow m t xs).2.arr → s.len ≤ (append grow m t xs).2.len := by
  obtain ⟨_, h2, _⟩ := hs
  unfold append
  split
  · intro he
    have := hst he
    simp only
    omega
  · intro he
    simp only at he
    have h0 : cells m s.arr = [] := cells_of_le m s.arr (by omega)
    rw [h0] at h2
    simp only [List.length_nil, Nat.le_zero_eq] at h2
    omega

/-- A slice reads the same elements after an `append` to it. -/
theorem read_append_old (grow : Nat → Nat → Nat) (m : Mem α) (s : Hdr) (xs : List α)
    (hv : valid m s) : read (append grow m s xs).1 s = read m s :=
  read_append_frame grow m s s xs hv hv (fun _ => Nat.le_refl _)

/-- The slice `append` returns holds the elements of `s` followed by `xs`. -/
theorem read_append_new (grow : Nat → Nat → Nat) (m : Mem α) (s : Hdr) (xs : List α)
    (hv : valid m s) :
    read (append grow m s xs).1 (append grow m s xs).2 = read m s ++ xs := by
  obtain ⟨_, h2, h3⟩ := hv
  unfold append
  split
  · rename_i hc
    simp only [read]
    by_cases hi : s.arr < m.length
    · rw [cells_set_self m s.arr _ hi, take_overwrite_new _ _ _ h2]
    · have hcap : s.cap = 0 := by omega
      have hx : xs = [] := by
        apply List.eq_nil_of_length_eq_zero; omega
      have hl : s.len = 0 := by omega
      simp [hx, hl]
  · simp only [read]
    rw [cells_append_new]
    have hlen : (List.take s.len (cells m s.arr)).length = s.len := by
      simp [h2]
    have : (List.take s.len (cells m s.arr) ++ xs).length = s.len + xs.length := by
      simp [hlen]
    rw [← this, List.take_length]

/-- The slice `append` returns is a slice of the memory it returns. -/
theorem valid_append_new (grow : Nat → Nat → Nat) (m : Mem α) (s : Hdr) (xs : List α)
    (hv : valid m s) : valid (append grow m s xs).1 (append grow m s xs).2 := by
  obtain ⟨h1, h2, h3⟩ := hv
  unfold append
  split
  · rename_i hc
    refine ⟨hc, ?_, ?_⟩
    · by_cases hi : s.arr < m.length
      · simp only
        rw [cells_set_self m s.arr _ hi]
        exact length_overwrite _ _ _ h2
      · have hcap : s.cap = 0 := by omega
        simp only
        omega
    · simp only [List.length_set]
      exact h3
  · refine ⟨by simp, ?_, ?_⟩
    · simp only
      rw [cells_append_new]
      simp [read, h2]
    · simp

/-- A slice of the memory is still one after an `append` to it. -/
theorem valid_append_old (grow : Nat → Nat → Nat) (m : Mem α) (s : Hdr) (xs : List α)
    (hv : valid m s) : valid (append grow m s xs).1 s :=
  valid_append_frame grow m s s xs hv

/-- The nil slice is a slice of every memory and has no element. -/
theorem valid_nil (m : Mem α) : valid m Hdr.nil := by
  simp [valid, Hdr.nil]

theorem read_nil (m : Mem α) : read m Hdr.nil = [] := by
  simp [read, Hdr.nil]

end mem

/-! ## The chains of mods.go: claims -/

section chainClaims

open dialect

/-- C11. `FromChain.Apply` calls the methods of its target in the fixed order SetTable,
SetTableAlias (only when the alias is not empty), SetLateral, AppendPartition, each
at most once, with the table, alias and columns, lateral flag and partitions of the
clause the chain evaluates to; what it does to any target is what these calls do,
also when the partitions are read from the memory. -/
theorem C11_Apply_call_order {Q A : Type} (I : fromable Q A) (f : FromChain A) (q : Q) :
    FromChain.Apply (recorder A) f [] =
      [FromCall.SetTable (f ()).Table]
        ++ (if (f ()).Alias ≠ "" then
              [FromCall.SetTableAlias (f ()).Alias (f ()).Columns] else [])
        ++ [FromCall.SetLateral (f ()).Lateral, FromCall.AppendPartition (f ()).Partitions] ∧
    FromChain.Apply I f q = runCalls I (FromChain.Apply (recorder A) f []) q ∧
    (∀ (h : FromChainH A) (m : Memory),
      FromChainH.Apply I h m q = FromChain.Apply I (fun _ => (h ()).view m) q) := by
  refine ⟨?_, Apply_eq_runCalls I f q, fun _ _ => rfl⟩
  rw [Apply_recorder]
  simp

/-- The view of a FROM clause depends on the memory through its two slices only. -/
theorem FromH_view_congr {A : Type} (m m' : Memory) (fr : clause.FromH A)
    (h1 : mem.read m'.strings fr.Partitions = mem.read m.strings fr.Partitions)
    (h2 : mem.read m'.hints fr.IndexHints = mem.read m.hints fr.IndexHints) :
    fr.view m' = fr.view m := by
  simp [clause.FromH.view, h1, h2]

/-- C12. A fluent method called on a chain leaves the clause the chain evaluates to as
it was. As, Lateral (FROM), As, Natural, Using (JOIN), Asc, Desc, Collate, As (WITH),
NoWait and SkipLocked write nothing: they leave the memory as it is. Partition and
the index methods (FROM), On and OnEQ (JOIN) call `append`, which may write into a
backing array the chain shares: the clause of the chain reads the same in the
memory they leave, and `Apply` of the chain does the same to every target. -/
theorem C12_fluent_methods_keep_receiver {A B Qy : Type} (grow : Nat → Nat → Nat)
    (m : Memory) :
    (∀ (f : FromChainH A) (alias_ : String) (columns : List String),
      (FromChainH.As f alias_ columns m).1 = m) ∧
    (∀ f : FromChainH A, (FromChainH.Lateral f m).1 = m) ∧
    (∀ (f : FromChainH A) (partitions : List String),
      mem.valid m.strings (f ()).Partitions →
      (f ()).view (FromChainH.Partition grow f partitions m).1 = (f ()).view m ∧
      ∀ (Q : Type) (I : fromable Q A) (q : Q),
        FromChainH.Apply I f (FromChainH.Partition grow f partitions m).1 q =
          FromChainH.Apply I f m q) ∧
    (∀ (f : FromChainH A) (Type_ For first : String) (others : List String),
      mem.valid m.hints (f ()).IndexHints →
      (f ()).view (FromChainH.index grow f Type_ For first others m).1 = (f ()).view m ∧
      ∀ (Q : Type) (I : fromable Q A) (q : Q),
        FromChainH.Apply I f (FromChainH.index grow f Type_ For first others m).1 q =
          FromChainH.Apply I f m q) ∧
    (∀ (j : JoinChain) (alias_ : String), (JoinChain.As j alias_ m).1 = m) ∧
    (∀ j : JoinChain, (JoinChain.Natural j m).1 = m) ∧
    (∀ (j : JoinChain) (on_ : List Value), mem.valid m.values (j ()).On →
      (j ()).view (JoinChain.On grow j on_ m).1 = (j ()).view m) ∧
    (∀ (j : JoinChain) (a b : Value), mem.valid m.values (j ()).On →
      (j ()).view (JoinChain.OnEQ grow j a b m).1 = (j ()).view m) ∧
    (∀ (j : JoinChain) (using_ : List Value), (JoinChain.Using j using_ m).1 = m) ∧
    (∀ o : OrderBy B, (OrderBy.Asc o m).1 = m ∧ (OrderBy.Desc o m).1 = m) ∧
    (∀ (o : OrderBy B) (collation : String), (OrderBy.Collate o collation m).1 = m) ∧
    (∀ (c : CTEChain Qy) (q : Option Qy), (CTEChain.As c q m).1 = m) ∧
    (∀ l : LockChain, (LockChain.NoWait l m).1 = m ∧ (LockChain.SkipLocked l m).1 = m) := by
  refine ⟨fun _ _ _ => rfl, fun _ => rfl, ?_, ?_, fun _ _ => rfl, fun _ => rfl, ?_, ?_,
    fun _ _ => rfl, fun _ => ⟨rfl, rfl⟩, fun _ _ => rfl, fun _ _ => rfl, fun _ => ⟨rfl, rfl⟩⟩
  · intro f partitions hv
    have hr := mem.read_append_old grow m.strings (f ()).Partitions partitions hv
    refine ⟨FromH_view_congr m _ (f ()) hr rfl, ?_⟩
    intro Q I q
    simp only [FromChainH.Apply, FromChainH.Partition, hr]
  · intro f Type_ For first others hv
    have hr := mem.read_append_old grow m.hints (f ()).IndexHints
      [{ Type_ := Type_, Indexes := [first] ++ others, For := For }] hv
    refine ⟨FromH_view_congr m _ (f ()) rfl hr, ?_⟩
    intro Q I q
    rfl
  · intro j on_ hv
    have hr := mem.read_append_old grow m.values (j ()).On [Value.slice on_] hv
    simp only [clause.Join.view, JoinChain.On, hr]
  · intro j a b hv
    have hr := mem.read_append_old grow m.values (j ()).On [Value.eq a b] hv
    simp only [clause.Join.view, JoinChain.OnEQ, hr]

/-- Witness of C12: `From("t").Partition("a").Partition("b").Partition("c")` has room
for one more partition; `Partition("d")` called on it writes "d" into the array the
chain shares, and the chain still evaluates to the partitions "a", "b", "c". -/
theorem C12_fluent_methods_keep_receiver_witness :
    (FromChainH.Partition Sample.grow Sample.partABC.2 ["d"] Sample.partABC.1).1.strings =
      [["a"], ["a", "b"], ["a", "b", "c", "d"]] ∧
    (Sample.partABC.2 ()).view (FromChainH.Partition Sample.grow Sample.partABC.2 ["d"]
        Sample.partABC.1).1 =
      { Table := some "t", Alias := "", Columns := [], Lateral := false,
        Partitions := ["a", "b", "c"], IndexHints := [] } :=
  ⟨rfl,
   (((@C12_fluent_methods_keep_receiver String String String
      Sample.grow Sample.partABC.1).2.2.1 Sample.partABC.2 ["d"]
      ⟨by decide, by decide, Or.inr (by decide)⟩).1).trans rfl⟩

/-- Two chains made from the same chain may share a backing array: after
`c.Partition("d")` and then `c.Partition("x")` on
`c = From("t").Partition("a").Partition("b").Partition("c")`, the first of the two
evaluates to the partitions "a", "b", "c", "x". -/
theorem Partition_siblings_share :
    ((FromChainH.Partition Sample.grow Sample.partABC.2 ["d"] Sample.partABC.1).2 ()).view
        (FromChainH.Partition Sample.grow Sample.partABC.2 ["d"] Sample.partABC.1).1 =
      { Table := some "t", Alias := "", Columns := [], Lateral := false,
        Partitions := ["a", "b", "c", "d"], IndexHints := [] } ∧
    ((FromChainH.Partition Sample.grow Sample.partABC.2 ["d"] Sample.partABC.1).2 ()).view
        (FromChainH.Partition Sample.grow Sample.partABC.2 ["x"]
          (FromChainH.Partition Sample.grow Sample.partABC.2 ["d"] Sample.partABC.1).1).1 =
      { Table := some "t", Alias := "", Columns := [], Lateral := false,
        Partitions := ["a", "b", "c", "x"], IndexHints := [] } :=
  ⟨rfl, rfl⟩

/-- C13, counterexample. With the chain for USE INDEX (idx) at pointer 0, applying
the chain pushes a hint with the empty For; `ForJoin` returns the pointer 0 itself,
and applying the chain after the call pushes a hint with For = JOIN. -/
theorem C13_ForJoin_changes_receiver :
    IndexHintChain.Apply (fun h q => q ++ [h]) 0 Sample.memoryHint [] =
      some [{ Type_ := "USE", Indexes := ["idx"], For := "" }] ∧
    (IndexHintChain.ForJoin 0 Sample.memoryHint).map Prod.snd = some 0 ∧
    (IndexHintChain.ForJoin 0 Sample.memoryHint).bind
        (fun r => IndexHintChain.Apply (fun h q => q ++ [h]) 0 r.1 []) =
      some [{ Type_ := "USE", Indexes := ["idx"], For := "JOIN" }] := by
  decide

/-- C13, amended. On a pointer `i` to a chain, ForJoin, ForOrderBy and ForGroupBy
return `i` itself and set the For of the hint of that chain, in place, to JOIN,
ORDER BY and GROUP BY: applying `i` after the call pushes the hint with the new For
and the Type and Indexes it had, where applying it before the call pushed the hint
as it was; the chains at other pointers are as they were. -/
theorem C13_For_methods_set_in_place {Q : Type} (AppendIndexHint : clause.IndexHint → Q → Q)
    (i : Nat) (m : Memory) (c : IndexHintChain) (q : Q) (hc : m.chains[i]? = some c) :
    IndexHintChain.Apply AppendIndexHint i m q = some (AppendIndexHint c.hint q) ∧
    IndexHintChain.ForJoin i m =
      some ({ m with chains := m.chains.set i { hint := { c.hint with For := "JOIN" } } }, i) ∧
    IndexHintChain.ForOrderBy i m =
      some ({ m with chains := m.chains.set i { hint := { c.hint with For := "ORDER BY" } } },
        i) ∧
    IndexHintChain.ForGroupBy i m =
      some ({ m with chains := m.chains.set i { hint := { c.hint with For := "GROUP BY" } } },
        i) ∧
    (∀ v : String,
      IndexHintChain.Apply AppendIndexHint i
          { m with chains := m.chains.set i { hint := { c.hint with For := v } } } q =
        some (AppendIndexHint
          { Type_ := c.hint.Type_, Indexes := c.hint.Indexes, For := v } q)) ∧
    (∀ (v : String) (k : Nat), k ≠ i →
      (m.chains.set i { hint := { c.hint with For := v } })[k]? = m.chains[k]?) := by
  have hlt : i < m.chains.length := by
    rcases Nat.lt_or_ge i m.chains.length with h | h
    · exact h
    · rw [List.getElem?_eq_none h] at hc
      cases hc
  refine ⟨?_, ?_, ?_, ?_, ?_, ?_⟩
  · simp [IndexHintChain.Apply, hc]
  · simp [IndexHintChain.ForJoin, IndexHintChain.setFor, hc]
  · simp [IndexHintChain.ForOrderBy, IndexHintChain.setFor, hc]
  · simp [IndexHintChain.ForGroupBy, IndexHintChain.setFor, hc]
  · intro v
    simp [IndexHintChain.Apply, hlt]
  · intro v k hk
    simp [List.getElem?_set_ne (Ne.symm hk)]

/-- Witness of C13 (amended): the chain for USE INDEX (idx) at pointer 0. -/
theorem C13_For_methods_set_in_place_witness :
    IndexHintChain.ForOrderBy 0 Sample.memoryHint =
      some (⟨[], [], [], [{ hint := { Type_ := "USE", Indexes := ["idx"], For := "ORDER BY" } }]⟩,
        0) :=
  (C13_For_methods_set_in_place (fun h q => q ++ [h]) 0 Sample.memoryHint
    { hint := { Type_ := "USE", Indexes := ["idx"], For := "" } } [] rfl).2.2.1

/-- Applying a Mod `n` times to a target whose method appends to a list. -/
theorem iterate_append {Q C : Type} (step : Q → Q) (items : Q → List C) (c : C)
    (h : ∀ q, items (step q) = items q ++ [c]) :
    ∀ (n : Nat) (q : Q), items (Nat.iterate step n q) = items q ++ List.replicate n c := by
  intro n
  induction n with
  | zero => intro q; simp
  | succ n ih =>
    intro q
    rw [Function.iterate_succ_apply, ih (step q), h q, List.replicate_succ]
    simp

/-- C14. One `Apply` of a JOIN chain is one call of `AppendJoin`, with the clause the
chain evaluates to (likewise `OrderBy.Apply` and `AppendOrder`); on a target whose
`AppendJoin` (`AppendOrder`) appends to its list of clauses, applying the same chain
`n` times leaves the list with `n` more clauses, each the clause the chain evaluates
to, after the clauses it had. -/
theorem C14_Apply_accumulates {Q R A : Type} (I : joinable Q) (joins : Q → List clause.Join)
    (J : orderable R A) (orders : R → List (clause.OrderDef A))
    (hI : ∀ c q, joins (I.AppendJoin c q) = joins q ++ [c])
    (hJ : ∀ c r, orders (J.AppendOrder c r) = orders r ++ [c])
    (j : JoinChain) (o : OrderBy A) (n : Nat) (q : Q) (r : R) :
    JoinChain.Apply I j q = I.AppendJoin (j ()) q ∧
    joins (Nat.iterate (JoinChain.Apply I j) n q) = joins q ++ List.replicate n (j ()) ∧
    (joins (Nat.iterate (JoinChain.Apply I j) n q)).length = (joins q).length + n ∧
    OrderBy.Apply J o r = J.AppendOrder (o ()) r ∧
    orders (Nat.iterate (OrderBy.Apply J o) n r) = orders r ++ List.replicate n (o ()) ∧
    (orders (Nat.iterate (OrderBy.Apply J o) n r)).length = (orders r).length + n := by
  have h1 := iterate_append (JoinChain.Apply I j) joins (j ()) (fun q => hI (j ()) q) n q
  have h2 := iterate_append (OrderBy.Apply J o) orders (o ()) (fun r => hJ (o ()) r) n r
  refine ⟨rfl, h1, ?_, rfl, h2, ?_⟩
  · rw [h1]; simp
  · rw [h2]; simp

/-- Witness of C14: an ORDER BY term applied three times to a target with one term. -/
theorem C14_Apply_accumulates_witness :
    Nat.iterate (OrderBy.Apply Sample.orderList Sample.orderName) 3
        [{ Expression := "id", Direction := "ASC", CollationName := "" }] =
      [{ Expression := "id", Direction := "ASC", CollationName := "" },
       { Expression := "name", Direction := "", CollationName := "" },
       { Expression := "name", Direction := "", CollationName := "" },
       { Expression := "name", Direction := "", CollationName := "" }] :=
  (C14_Apply_accumulates Sample.joinList id Sample.orderList id (fun _ _ => rfl)
    (fun _ _ => rfl) (InnerJoin (Value.str "orders")) Sample.orderName 3 []
    [{ Expression := "id", Direction := "ASC", CollationName := "" }]).2.2.2.2.1

/-- C15. `j.On(on...)` yields the clause `j` evaluates to with one entry more in its On
list: the entries `j` had, in their order, followed by the group `on`; Type, To,
Alias, Natural and Using are those of `j`, and the clause of `j` itself reads as
before, none of its conditions being overwritten. -/
theorem C15_On_appends_one_group (grow : Nat → Nat → Nat) (j : JoinChain) (on_ : List Value)
    (m : Memory) (hv : mem.valid m.values (j ()).On) :
    (JoinChain.On grow j on_ m).2.view (JoinChain.On grow j on_ m).1 =
      { Type_ := (j ()).Type_, To := (j ()).To, Alias := (j ()).Alias,
        Natural := (j ()).Natural, On := ((j ()).view m).On ++ [Value.slice on_],
        Using := (j ()).Using } ∧
    (j ()).view (JoinChain.On grow j on_ m).1 = (j ()).view m := by
  have h1 := mem.read_append_new grow m.values (j ()).On [Value.slice on_] hv
  have h2 := mem.read_append_old grow m.values (j ()).On [Value.slice on_] hv
  constructor
  · simp only [clause.Join.view, JoinChain.On, h1]
  · simp only [clause.Join.view, JoinChain.On, h2]

/-- Witness of C15: a second `On` on a chain that holds the group of "a". -/
theorem C15_On_appends_one_group_witness :
    (JoinChain.On Sample.grow (fun _ => Sample.joinOnA.2) [Value.str "b", Value.str "c"]
        Sample.joinOnA.1).2.view
      (JoinChain.On Sample.grow (fun _ => Sample.joinOnA.2) [Value.str "b", Value.str "c"]
        Sample.joinOnA.1).1 =
      { Type_ := "INNER JOIN", To := Value.str "orders", Alias := "", Natural := false,
        On := [Value.slice [Value.str "a"], Value.slice [Value.str "b", Value.str "c"]],
        Using := [] } :=
  (C15_On_appends_one_group Sample.grow (fun _ => Sample.joinOnA.2)
    [Value.str "b", Value.str "c"] Sample.joinOnA.1
    ⟨by decide, by decide, Or.inr (by decide)⟩).1.trans rfl

/-- C16. The code at the failing input: on `InnerJoin("orders")`,
`OnEQ("u.id", "orders.user_id")` appends the equality expression itself to the On
list, while `On(e)` with `e` that equality expression appends the group holding
`e`: the two clauses differ in their On lists. -/
theorem C16_OnEQ_is_not_On :
    ((JoinChain.OnEQ Sample.grow (InnerJoin (Value.str "orders")) (Value.str "u.id")
        (Value.str "orders.user_id") Sample.memory0).2.view
      (JoinChain.OnEQ Sample.grow (InnerJoin (Value.str "orders")) (Value.str "u.id")
        (Value.str "orders.user_id") Sample.memory0).1).On =
      [Value.eq (Value.str "u.id") (Value.str "orders.user_id")] ∧
    ((JoinChain.On Sample.grow (InnerJoin (Value.str "orders"))
        [Value.eq (Value.str "u.id") (Value.str "orders.user_id")] Sample.memory0).2.view
      (JoinChain.On Sample.grow (InnerJoin (Value.str "orders"))
        [Value.eq (Value.str "u.id") (Value.str "orders.user_id")] Sample.memory0).1).On =
      [Value.slice [Value.eq (Value.str "u.id") (Value.str "orders.user_id")]] ∧
    (JoinChain.OnEQ Sample.grow (InnerJoin (Value.str "orders")) (Value.str "u.id")
        (Value.str "orders.user_id") Sample.memory0).2.view
      (JoinChain.OnEQ Sample.grow (InnerJoin (Value.str "orders")) (Value.str "u.id")
        (Value.str "orders.user_id") Sample.memory0).1 ≠
    (JoinChain.On Sample.grow (InnerJoin (Value.str "orders"))
        [Value.eq (Value.str "u.id") (Value.str "orders.user_id")] Sample.memory0).2.view
      (JoinChain.On Sample.grow (InnerJoin (Value.str "orders"))
        [Value.eq (Value.str "u.id") (Value.str "orders.user_id")] Sample.memory0).1 := by
  refine ⟨rfl, rfl, ?_⟩
  intro h
  have h2 := congrArg clause.JoinView.On h
  have h3 : [Value.eq (Value.str "u.id") (Value.str "orders.user_id")] =
      [Value.slice [Value.eq (Value.str "u.id") (Value.str "orders.user_id")]] := h2
  simp at h3

/-- C17. Direction and collation of an ORDER BY term are set independently: Desc then
Collate and Collate then Desc give the same term, likewise with Asc; Asc and Desc
set the direction and leave the expression and the collation, Collate sets the
collation and leaves the expression and the direction, an empty one staying empty. -/
theorem C17_direction_and_collation {A : Type} (o : OrderBy A) (c : String) (m : Memory) :
    (andThen (OrderBy.Desc o m) (fun o1 => OrderBy.Collate o1 c)).2 () =
      (andThen (OrderBy.Collate o c m) OrderBy.Desc).2 () ∧
    (andThen (OrderBy.Asc o m) (fun o1 => OrderBy.Collate o1 c)).2 () =
      (andThen (OrderBy.Collate o c m) OrderBy.Asc).2 () ∧
    (andThen (OrderBy.Desc o m) (fun o1 => OrderBy.Collate o1 c)).2 () =
      { Expression := (o ()).Expression, Direction := "DESC", CollationName := c } ∧
    (andThen (OrderBy.Asc o m) (fun o1 => OrderBy.Collate o1 c)).2 () =
      { Expression := (o ()).Expression, Direction := "ASC", CollationName := c } ∧
    (OrderBy.Asc o m).2 () =
      { Expression := (o ()).Expression, Direction := "ASC",
        CollationName := (o ()).CollationName } ∧
    (OrderBy.Desc o m).2 () =
      { Expression := (o ()).Expression, Direction := "DESC",
        CollationName := (o ()).CollationName } ∧
    (OrderBy.Collate o c m).2 () =
      { Expression := (o ()).Expression, Direction := (o ()).Direction, CollationName := c } ∧
    ((o ()).Direction = "" → ((OrderBy.Collate o c m).2 ()).Direction = "") :=
  ⟨rfl, rfl, rfl, rfl, rfl, rfl, rfl, fun h => h⟩

/-- Witness of C17: `OrderBy("name").Desc().Collate("binary")`, and the fresh term with
a collation only. -/
theorem C17_direction_and_collation_witness :
    (andThen (OrderBy.Desc Sample.orderName Sample.memory0)
        (fun o1 => OrderBy.Collate o1 "binary")).2 () =
      { Expression := "name", Direction := "DESC", CollationName := "binary" } ∧
    ((OrderBy.Collate Sample.orderName "binary" Sample.memory0).2 ()).Direction = "" :=
  ⟨(C17_direction_and_collation Sample.orderName "binary" Sample.memory0).2.2.1,
   (C17_direction_and_collation Sample.orderName "binary" Sample.memory0).2.2.2.2.2.2.2 rfl⟩

/-- C18. The two wait-policy overrides of a lock chain are resolved last-write-wins:
NoWait then SkipLocked gives SKIP LOCKED, SkipLocked then NoWait gives NOWAIT; each
override called twice gives what it gives called once, leaves the strength, and
the two policies differ; `Apply` hands the target the clause of the chain as it is,
with the wait policy it has. -/
theorem C18_wait_policy_last_write_wins {Q : Type} (I : lockable Q) (l : LockChain)
    (m : Memory) (q : Q) :
    (andThen (LockChain.NoWait l m) LockChain.SkipLocked).2 () =
      { Strength := (l ()).Strength, Wait := clause.LockWaitSkipLocked } ∧
    (andThen (LockChain.SkipLocked l m) LockChain.NoWait).2 () =
      { Strength := (l ()).Strength, Wait := clause.LockWaitNoWait } ∧
    (andThen (LockChain.NoWait l m) LockChain.NoWait).2 () = (LockChain.NoWait l m).2 () ∧
    (andThen (LockChain.SkipLocked l m) LockChain.SkipLocked).2 () =
      (LockChain.SkipLocked l m).2 () ∧
    (LockChain.NoWait l m).2 () =
      { Strength := (l ()).Strength, Wait := clause.LockWaitNoWait } ∧
    (LockChain.SkipLocked l m).2 () =
      { Strength := (l ()).Strength, Wait := clause.LockWaitSkipLocked } ∧
    clause.LockWaitNoWait ≠ clause.LockWaitSkipLocked ∧
    LockChain.Apply I l q = I.SetFor (l ()) q :=
  ⟨rfl, rfl, rfl, rfl, rfl, rfl, by decide, rfl⟩

/-- C19. Applying `With(name, columns...)` without `As` makes one call of `AppendWith`,
with the CTE of that name and those columns and the nil query; applying
`With(name, columns...).As(q)` makes one call of `AppendWith` with the CTE of the
same name and columns and the query `q`. -/
theorem C19_With_and_As {Q Qy : Type} (I : withable Q Qy) (name : String)
    (columns : List String) (query : Qy) (m : Memory) (q : Q) :
    CTEChain.Apply I (With name columns) q =
      I.AppendWith { Name := name, Columns := columns, Query := none } q ∧
    CTEChain.Apply I (CTEChain.As (With name columns) (some query) m).2 q =
      I.AppendWith { Name := name, Columns := columns, Query := some query } q :=
  ⟨rfl, rfl⟩

/-- The calls of `When` one after the other: the pairs are appended in the order of
the calls, the ELSE branch is kept, and every slice that was no longer than the
one of the chain, on the same backing array, reads as before. -/
theorem Whens_spec {T : Type} (grow : Nat → Nat → Nat) :
    ∀ (ps : List (expr.When T)) (c : mysql.CaseChain T) (m : mem.Mem (expr.When T))
      (s0 : mem.Hdr),
      mem.valid m (c ()).Whens → mem.valid m s0 →
      (s0.arr = (c ()).Whens.arr → s0.len ≤ (c ()).Whens.len) →
      mem.read (mysql.CaseChain.Whens grow ps c m).1
          ((mysql.CaseChain.Whens grow ps c m).2 ()).Whens =
        mem.read m (c ()).Whens ++ ps ∧
      ((mysql.CaseChain.Whens grow ps c m).2 ()).Else = (c ()).Else ∧
      mem.read (mysql.CaseChain.Whens grow ps c m).1 s0 = mem.read m s0 := by
  intro ps
  induction ps with
  | nil =>
    intro c m s0 _ _ _
    simp [mysql.CaseChain.Whens]
  | cons p ps ih =>
    intro c m s0 hv hs hcov
    have hnew := mem.valid_append_new grow m (c ()).Whens [p] hv
    have hs1 := mem.valid_append_frame grow m s0 (c ()).Whens [p] hs
    have hcov1 := mem.append_covers grow m s0 (c ()).Whens [p] hs hcov
    have hr := mem.read_append_new grow m (c ()).Whens [p] hv
    have hf := mem.read_append_frame grow m s0 (c ()).Whens [p] hs hv hcov
    obtain ⟨i1, i2, i3⟩ := ih (mysql.CaseChain.When grow c p.Condition p.Then m).2
      (mysql.CaseChain.When grow c p.Condition p.Then m).1 s0 hnew hs1 hcov1
    refine ⟨?_, ?_, ?_⟩
    · rw [mysql.CaseChain.Whens, i1]
      simp only [mysql.CaseChain.When]
      rw [hr]
      simp
    · rw [mysql.CaseChain.Whens, i2]
      rfl
    · rw [mysql.CaseChain.Whens, i3]
      exact hf

/-- C20. After the calls `When(c1, t1)`, ..., `When(cn, tn)` made one after the other
on a CASE chain `c`, the case holds the pairs of `c`, in their order, followed by
the new pairs in the order of the calls, with the ELSE branch of `c`; the case of
`c` itself reads as before; `Else(e)` sets the ELSE branch and keeps the slice of
pairs. -/
theorem C20_When_appends_in_call_order {T E : Type} (grow : Nat → Nat → Nat)
    (c : mysql.CaseChain T) (m : mem.Mem (expr.When T)) (pairs : List (expr.When T))
    (New : expr.Case T → E) (e : T) (hv : mem.valid m (c ()).Whens) :
    ((mysql.CaseChain.Whens grow pairs c m).2 ()).view (mysql.CaseChain.Whens grow pairs c m).1 =
      { Whens := ((c ()).view m).Whens ++ pairs, Else := (c ()).Else } ∧
    (c ()).view (mysql.CaseChain.Whens grow pairs c m).1 = (c ()).view m ∧
    (∀ condition then_ : T,
      ((mysql.CaseChain.When grow c condition then_ m).2 ()).view
          (mysql.CaseChain.When grow c condition then_ m).1 =
        { Whens := ((c ()).view m).Whens ++ [{ Condition := condition, Then := then_ }],
          Else := (c ()).Else } ∧
      (c ()).view (mysql.CaseChain.When grow c condition then_ m).1 = (c ()).view m) ∧
    mysql.CaseChain.Else New c e = New { Whens := (c ()).Whens, Else := some e } := by
  obtain ⟨h1, h2, h3⟩ := Whens_spec grow pairs c m (c ()).Whens hv hv (fun _ => Nat.le_refl _)
  refine ⟨?_, ?_, ?_, rfl⟩
  · simp only [expr.Case.view, h1, h2]
  · simp only [expr.Case.view, h3]
  · intro condition then_
    obtain ⟨k1, k2, k3⟩ := Whens_spec grow [{ Condition := condition, Then := then_ }] c m
      (c ()).Whens hv hv (fun _ => Nat.le_refl _)
    simp only [mysql.CaseChain.Whens] at k1 k2 k3
    constructor
    · simp only [expr.Case.view, k1, k2]
    · simp only [expr.Case.view, k3]

/-- Witness of C20: `Case().When(c1, t1).When(c2, t2)` in the empty memory. -/
theorem C20_When_appends_in_call_order_witness :
    ((mysql.CaseChain.Whens Sample.grow
        [{ Condition := "c1", Then := "t1" }, { Condition := "c2", Then := "t2" }]
        mysql.Case []).2 ()).view
      (mysql.CaseChain.Whens Sample.grow
        [{ Condition := "c1", Then := "t1" }, { Condition := "c2", Then := "t2" }]
        mysql.Case []).1 =
      { Whens := [{ Condition := "c1", Then := "t1" }, { Condition := "c2", Then := "t2" }],
        Else := none } :=
  (C20_When_appends_in_call_order Sample.grow (mysql.Case (T := String)) []
    [{ Condition := "c1", Then := "t1" }, { Condition := "c2", Then := "t2" }]
    (fun c => c) "e" (mem.valid_nil [])).1.trans rfl

/-- The clause `index` builds in memory reads as the clause of the chain with the new
hint after its hints, and the clause of the chain itself reads as before. -/
theorem index_view {A : Type} (grow : Nat → Nat → Nat) (h : FromChainH A)
    (Type_ For first : String) (others : List String) (m : Memory)
    (hv : mem.valid m.hints (h ()).IndexHints) :
    ((FromChainH.index grow h Type_ For first others m).2 ()).view
        (FromChainH.index grow h Type_ For first others m).1 =
      ((h ()).view m).withHint Type_ For first others ∧
    (h ()).view (FromChainH.index grow h Type_ For first others m).1 = (h ()).view m := by
  have h1 := mem.read_append_new grow m.hints (h ()).IndexHints
    [{ Type_ := Type_, Indexes := [first] ++ others, For := For }] hv
  have h2 := mem.read_append_old grow m.hints (h ()).IndexHints
    [{ Type_ := Type_, Indexes := [first] ++ others, For := For }] hv
  constructor
  · simp only [clause.FromH.view, FromChainH.index, clause.From.withHint, h1]
    simp
  · simp only [clause.FromH.view, FromChainH.index, h2]

/-- C21. Each of the twelve index-hint methods of a FROM chain yields the clause of the
chain with exactly one hint more, after the hints it has: the hint has the type
(USE, IGNORE, FORCE) and the For ("", JOIN, ORDER BY, GROUP BY) of the method's
name, and its indexes are the first name followed by the other names in the order
given, hence not empty; the table, alias, columns, lateral flag and partitions are
those of the chain. This holds of the clauses with their elements, and of the
clauses held in memory, where `append` may write into a backing array the chain
shares: there the clause of the chain itself reads as before. -/
theorem C21_index_hints_well_formed {A : Type} (f : FromChain A) (first : String)
    (others : List String) :
    (FromChain.UseIndex f first others) () = (f ()).withHint "USE" "" first others ∧
    (FromChain.UseIndexForJoin f first others) () = (f ()).withHint "USE" "JOIN" first others ∧
    (FromChain.UseIndexForOrderBy f first others) () = (f ()).withHint "USE" "ORDER BY" first others ∧
    (FromChain.UseIndexForGroupBy f first others) () = (f ()).withHint "USE" "GROUP BY" first others ∧
    (FromChain.IgnoreIndex f first others) () = (f ()).withHint "IGNORE" "" first others ∧
    (FromChain.IgnoreIndexForJoin f first others) () = (f ()).withHint "IGNORE" "JOIN" first others ∧
    (FromChain.IgnoreIndexForOrderBy f first others) () = (f ()).withHint "IGNORE" "ORDER BY" first others ∧
    (FromChain.IgnoreIndexForGroupBy f first others) () = (f ()).withHint "IGNORE" "GROUP BY" first others ∧
    (FromChain.ForceIndex f first others) () = (f ()).withHint "FORCE" "" first others ∧
    (FromChain.ForceIndexForJoin f first others) () = (f ()).withHint "FORCE" "JOIN" first others ∧
    (FromChain.ForceIndexForOrderBy f first others) () = (f ()).withHint "FORCE" "ORDER BY" first others ∧
    (FromChain.ForceIndexForGroupBy f first others) () = (f ()).withHint "FORCE" "GROUP BY" first others ∧
    (∀ Type_ For : String,
      ((f ()).withHint Type_ For first others).IndexHints =
        (f ()).IndexHints ++ [{ Type_ := Type_, Indexes := first :: others, For := For }] ∧
      first :: others ≠ [] ∧
      ((f ()).withHint Type_ For first others).Table = (f ()).Table ∧
      ((f ()).withHint Type_ For first others).Alias = (f ()).Alias ∧
      ((f ()).withHint Type_ For first others).Columns = (f ()).Columns ∧
      ((f ()).withHint Type_ For first others).Lateral = (f ()).Lateral ∧
      ((f ()).withHint Type_ For first others).Partitions = (f ()).Partitions) ∧
    (∀ (grow : Nat → Nat → Nat) (h : FromChainH A) (m : Memory),
      mem.valid m.hints (h ()).IndexHints →
      ((FromChainH.UseIndex grow h first others m).2 ()).view
          (FromChainH.UseIndex grow h first others m).1 =
        ((h ()).view m).withHint "USE" "" first others ∧
      (h ()).view (FromChainH.UseIndex grow h first others m).1 = (h ()).view m ∧
      ((FromChainH.UseIndexForJoin grow h first others m).2 ()).view
          (FromChainH.UseIndexForJoin grow h first others m).1 =
        ((h ()).view m).withHint "USE" "JOIN" first others ∧
      (h ()).view (FromChainH.UseIndexForJoin grow h first others m).1 = (h ()).view m ∧
      ((FromChainH.UseIndexForOrderBy grow h first others m).2 ()).view
          (FromChainH.UseIndexForOrderBy grow h first others m).1 =
        ((h ()).view m).withHint "USE" "ORDER BY" first others ∧
      (h ()).view (FromChainH.UseIndexForOrderBy grow h first others m).1 = (h ()).view m ∧
      ((FromChainH.UseIndexForGroupBy grow h first others m).2 ()).view
          (FromChainH.UseIndexForGroupBy grow h first others m).1 =
        ((h ()).view m).withHint "USE" "GROUP BY" first others ∧
      (h ()).view (FromChainH.UseIndexForGroupBy grow h first others m).1 = (h ()).view m ∧
      ((FromChainH.IgnoreIndex grow h first others m).2 ()).view
          (FromChainH.IgnoreIndex grow h first others m).1 =
        ((h ()).view m).withHint "IGNORE" "" first others ∧
      (h ()).view (FromChainH.IgnoreIndex grow h first others m).1 = (h ()).view m ∧
      ((FromChainH.IgnoreIndexForJoin grow h first others m).2 ()).view
          (FromChainH.IgnoreIndexForJoin grow h first others m).1 =
        ((h ()).view m).withHint "IGNORE" "JOIN" first others ∧
      (h ()).view (FromChainH.IgnoreIndexForJoin grow h first others m).1 = (h ()).view m ∧
      ((FromChainH.IgnoreIndexForOrderBy grow h first others m).2 ()).view
          (FromChainH.IgnoreIndexForOrderBy grow h first others m).1 =
        ((h ()).view m).withHint "IGNORE" "ORDER BY" first others ∧
      (h ()).view (FromChainH.IgnoreIndexForOrderBy grow h first others m).1 = (h ()).view m ∧
      ((FromChainH.IgnoreIndexForGroupBy grow h first others m).2 ()).view
          (FromChainH.IgnoreIndexForGroupBy grow h first others m).1 =
        ((h ()).view m).withHint "IGNORE" "GROUP BY" first others ∧
      (h ()).view (FromChainH.IgnoreIndexForGroupBy grow h first others m).1 = (h ()).view m ∧
      ((FromChainH.ForceIndex grow h first others m).2 ()).view
          (FromChainH.ForceIndex grow h first others m).1 =
        ((h ()).view m).withHint "FORCE" "" first others ∧
      (h ()).view (FromChainH.ForceIndex grow h first others m).1 = (h ()).view m ∧
      ((FromChainH.ForceIndexForJoin grow h first others m).2 ()).view
          (FromChainH.ForceIndexForJoin grow h first others m).1 =
        ((h ()).view m).withHint "FORCE" "JOIN" first others ∧
      (h ()).view (FromChainH.ForceIndexForJoin grow h first others m).1 = (h ()).view m ∧
      ((FromChainH.ForceIndexForOrderBy grow h first others m).2 ()).view
          (FromChainH.ForceIndexForOrderBy grow h first others m).1 =
        ((h ()).view m).withHint "FORCE" "ORDER BY" first others ∧
      (h ()).view (FromChainH.ForceIndexForOrderBy grow h first others m).1 = (h ()).view m ∧
      ((FromChainH.ForceIndexForGroupBy grow h first others m).2 ()).view
          (FromChainH.ForceIndexForGroupBy grow h first others m).1 =
        ((h ()).view m).withHint "FORCE" "GROUP BY" first others ∧
      (h ()).view (FromChainH.ForceIndexForGroupBy grow h first others m).1 = (h ()).view m) := by
  refine ⟨rfl, rfl, rfl, rfl, rfl, rfl, rfl, rfl, rfl, rfl, rfl, rfl, ?_, ?_⟩
  · intro Type_ For
    exact ⟨rfl, List.cons_ne_nil _ _, rfl, rfl, rfl, rfl, rfl⟩
  · intro grow h m hv
    exact ⟨(index_view grow h "USE" "" first others m hv).1,
      (index_view grow h "USE" "" first others m hv).2,
      (index_view grow h "USE" "JOIN" first others m hv).1,
      (index_view grow h "USE" "JOIN" first others m hv).2,
      (index_view grow h "USE" "ORDER BY" first others m hv).1,
      (index_view grow h "USE" "ORDER BY" first others m hv).2,
      (index_view grow h "USE" "GROUP BY" first others m hv).1,
      (index_view grow h "USE" "GROUP BY" first others m hv).2,
      (index_view grow h "IGNORE" "" first others m hv).1,
      (index_view grow h "IGNORE" "" first others m hv).2,
      (index_view grow h "IGNORE" "JOIN" first others m hv).1,
      (index_view grow h "IGNORE" "JOIN" first others m hv).2,
      (index_view grow h "IGNORE" "ORDER BY" first others m hv).1,
      (index_view grow h "IGNORE" "ORDER BY" first others m hv).2,
      (index_view grow h "IGNORE" "GROUP BY" first others m hv).1,
      (index_view grow h "IGNORE" "GROUP BY" first others m hv).2,
      (index_view grow h "FORCE" "" first others m hv).1,
      (index_view grow h "FORCE" "" first others m hv).2,
      (index_view grow h "FORCE" "JOIN" first others m hv).1,
      (index_view grow h "FORCE" "JOIN" first others m hv).2,
      (index_view grow h "FORCE" "ORDER BY" first others m hv).1,
      (index_view grow h "FORCE" "ORDER BY" first others m hv).2,
      (index_view grow h "FORCE" "GROUP BY" first others m hv).1,
      (index_view grow h "FORCE" "GROUP BY" first others m hv).2⟩

/-- Witness of C21: `IgnoreIndexForJoin("b", "c")` called on `From("users").UseIndex("a")`. -/
theorem C21_index_hints_well_formed_witness :
    ((FromChainH.IgnoreIndexForJoin Sample.grow Sample.useA.2 "b" ["c"] Sample.useA.1).2 ()).view
        (FromChainH.IgnoreIndexForJoin Sample.grow Sample.useA.2 "b" ["c"] Sample.useA.1).1 =
      { Table := some "users", Alias := "", Columns := [], Lateral := false, Partitions := [],
        IndexHints := [{ Type_ := "USE", Indexes := ["a"], For := "" },
                       { Type_ := "IGNORE", Indexes := ["b", "c"], For := "JOIN" }] } ∧
    (Sample.useA.2 ()).view
        (FromChainH.IgnoreIndexForJoin Sample.grow Sample.useA.2 "b" ["c"] Sample.useA.1).1 =
      { Table := some "users", Alias := "", Columns := [], Lateral := false, Partitions := [],
        IndexHints := [{ Type_ := "USE", Indexes := ["a"], For := "" }] } :=
  have h := (C21_index_hints_well_formed (dialect.From (some "users")) "b" ["c"]).2.2.2.2.2.2.2.2.2.2.2.2.2
    Sample.grow Sample.useA.2 Sample.useA.1 ⟨by decide, by decide, Or.inr (by decide)⟩
  ⟨h.2.2.2.2.2.2.2.2.2.2.1.trans rfl, h.2.2.2.2.2.2.2.2.2.2.2.1.trans rfl⟩

end chainClaims

end Bob
